import Mathlib

/-!
# Verification of the miniaudioengine core against its specification

Shallow embedding of the data structures and operations of the
miniaudioengine repository, together with theorems settling the
specification claims about them.

Conventions:
* C++ `float` samples are modelled as exact rationals (`ℚ`); every
  operation the claims exercise (copy, zero-fill, add, compare) is exact.
* Machine integers are modelled as `Nat` with an explicit `% 2^32`
  wherever a 32-bit `unsigned int` can wrap in the source.
* Fallible operations return `Bool × _` (mirroring the C++ `bool`
  results) or `Except` (mirroring thrown exceptions).
-/

namespace MiniAudioEngine

/-! ## Lock-free SPSC ring buffer

Embedding of `src/framework/include/lockfree_ringbuffer.h`
(`MinimalAudioEngine::LockfreeRingBuffer<T, Size>`).  The atomic indices
are plain fields: all claims about the buffer are single-threaded
(`no concurrent access`), where the acquire/release orderings are
irrelevant.  `m_buffer` is the backing `std::array<T, Size>`. -/

structure LockfreeRingBuffer (α : Type) (Size : Nat) where
  m_buffer : List α
  m_write_index : Nat
  m_read_index : Nat
deriving Repr, DecidableEq

namespace LockfreeRingBuffer

variable {α : Type} {Size : Nat}

/-- A default-constructed `LockfreeRingBuffer`: both indices zero.
The array contents are never read before being written; we model the
indeterminate initial contents with a default element. -/
def init (a : α) (Size : Nat) : LockfreeRingBuffer α Size :=
  { m_buffer := List.replicate Size a, m_write_index := 0, m_read_index := 0 }

/-- `LockfreeRingBuffer::try_push` (lockfree_ringbuffer.h lines 33-49):
returns `false` and leaves the buffer untouched when full, otherwise
stores the item at the current write index and advances it modulo
`Size`. -/
def try_push (rb : LockfreeRingBuffer α Size) (item : α) :
    Bool × LockfreeRingBuffer α Size :=
  let current_write := rb.m_write_index
  let next_write := (current_write + 1) % Size
  let current_read := rb.m_read_index
  if next_write = current_read then
    (false, rb)
  else
    (true, { rb with
               m_buffer := rb.m_buffer.set current_write item,
               m_write_index := next_write })

/-- `LockfreeRingBuffer::try_pop` (lockfree_ringbuffer.h lines 58-74):
returns `false` leaving the buffer and the caller's `item` untouched
when empty, otherwise returns the element at the read index and
advances it modulo `Size`.  The middle component models the by-reference
`item` argument. -/
def try_pop (rb : LockfreeRingBuffer α Size) (item : α) :
    Bool × α × LockfreeRingBuffer α Size :=
  let current_read := rb.m_read_index
  let current_write := rb.m_write_index
  if current_read = current_write then
    (false, item, rb)
  else
    let popped := rb.m_buffer.getD current_read item
    let next_read := (current_read + 1) % Size
    (true, popped, { rb with m_read_index := next_read })

/-- `LockfreeRingBuffer::size` (lockfree_ringbuffer.h lines 80-93). -/
def size (rb : LockfreeRingBuffer α Size) : Nat :=
  let current_write := rb.m_write_index
  let current_read := rb.m_read_index
  if current_read ≤ current_write then
    current_write - current_read
  else
    Size - (current_read - current_write)

/-- `LockfreeRingBuffer::capacity` (lockfree_ringbuffer.h lines 100-103). -/
def capacity (_rb : LockfreeRingBuffer α Size) : Nat :=
  Size - 1

/-- Well-formedness: both indices in range and the backing array has the
template size.  Holds for the default-constructed buffer and is
preserved by every operation. -/
def WF (rb : LockfreeRingBuffer α Size) : Prop :=
  rb.m_write_index < Size ∧ rb.m_read_index < Size ∧ rb.m_buffer.length = Size

instance (rb : LockfreeRingBuffer α Size) : Decidable rb.WF := by
  unfold WF; infer_instance

/-- Abstraction: the FIFO contents, oldest first, as slots from the read
index up to (but excluding) the write index in circular order. -/
def toList (rb : LockfreeRingBuffer α Size) : List α :=
  if rb.m_read_index ≤ rb.m_write_index then
    (rb.m_buffer.take rb.m_write_index).drop rb.m_read_index
  else
    rb.m_buffer.drop rb.m_read_index ++ rb.m_buffer.take rb.m_write_index

/-- Single-threaded operation sequences against the ring buffer. -/
inductive RBOp (α : Type) where
  | push (a : α)
  | pop

/-- Run a sequence of `try_push`/`try_pop` calls, collecting the final
buffer, the successfully pushed items (in order) and the successfully
popped items (in order).  `dflt` models the caller-provided `item`
variable passed by reference to `try_pop`. -/
def runOps (dflt : α) (rb : LockfreeRingBuffer α Size) :
    List (RBOp α) → LockfreeRingBuffer α Size × List α × List α
  | [] => (rb, [], [])
  | .push a :: rest =>
    let res := rb.try_push a
    let out := runOps dflt res.2 rest
    (out.1, if res.1 then a :: out.2.1 else out.2.1, out.2.2)
  | .pop :: rest =>
    let res := rb.try_pop dflt
    let out := runOps dflt res.2.2 rest
    (out.1, out.2.1, if res.1 then res.2.1 :: out.2.2 else out.2.2)
-- Theorems for the ring buffer are stated after all definitions below.

end LockfreeRingBuffer

/-! ## Audio data plane (preloaded-buffer variant)

Embedding of `src/data/audio/src/audiodataplane.cpp`
(`miniaudioengine::data::AudioDataPlane`), fields from
`src/dataplane/audio/include/audiodataplane.h`. -/

/-- 32-bit `unsigned int` modulus: the read position and the buffer index
computed in `process_audio` are `unsigned int` and wrap. -/
def UINT32 : Nat := 2 ^ 32

/-- `AudioOutputStatistics` (audiodataplane.h lines 21-52).  Wall-clock
derived values are exact rationals; the clock readings themselves are
inputs of the functions that use them. -/
structure AudioOutputStatistics where
  total_frames_read : Nat
  total_read_time_ms : ℚ
  batch_size_frames : Nat
  total_batches : Nat
  average_batch_time_ms : ℚ
  max_batch_time_ms : ℚ
  min_batch_time_ms : ℚ
  throughput_frames_per_second : ℚ
  underrun_count : Nat
  overrun_count : Nat
deriving Repr, DecidableEq

/-- All-zero statistics block (the C++ member initializers). -/
def AudioOutputStatistics.initial : AudioOutputStatistics :=
  { total_frames_read := 0, total_read_time_ms := 0, batch_size_frames := 0,
    total_batches := 0, average_batch_time_ms := 0, max_batch_time_ms := 0,
    min_batch_time_ms := 0, throughput_frames_per_second := 0,
    underrun_count := 0, overrun_count := 0 }

/-- `AudioDataPlane::update_audio_output_statistics` (audiodataplane.cpp
lines 102-128); the identical inline code also ends
`TrackAudioDataPlane::process_audio` (trackaudiodataplane.cpp lines
72-95).  `batch_time_ms` is the wall-clock duration measured around the
batch; `stream_time` the backend-provided stream time in seconds. -/
def updateAudioOutputStatistics (stats : AudioOutputStatistics) (n_frames : Nat)
    (batch_time_ms stream_time : ℚ) : AudioOutputStatistics :=
  let s1 := { stats with
                total_frames_read := stats.total_frames_read + n_frames,
                total_batches := stats.total_batches + 1,
                total_read_time_ms := stats.total_read_time_ms + batch_time_ms,
                batch_size_frames := n_frames }
  let current_throughput : ℚ :=
    (s1.total_frames_read : ℚ) / (if stream_time > 0 then stream_time else 1)
  let s2 :=
    if s1.total_batches = 1 then
      { s1 with min_batch_time_ms := batch_time_ms, max_batch_time_ms := batch_time_ms }
    else
      { s1 with min_batch_time_ms := min s1.min_batch_time_ms batch_time_ms,
                max_batch_time_ms := max s1.max_batch_time_ms batch_time_ms }
  { s2 with throughput_frames_per_second := current_throughput }

/-- State of `miniaudioengine::data::AudioDataPlane`. -/
structure AudioDataPlane where
  m_preloaded_frames_buffer : List ℚ
  m_output_buffer : List ℚ
  m_audio_output_stats : AudioOutputStatistics
  m_stop_command : Bool
  m_read_position : Nat
  m_input_channels : Nat
  m_output_channels : Nat
deriving Repr, DecidableEq

namespace AudioDataPlane

/-- `AudioDataPlane::is_running` (audiodataplane.h lines 101-104). -/
def is_running (dp : AudioDataPlane) : Bool :=
  !dp.m_stop_command

/-- `AudioDataPlane::prepare_output_buffer` (audiodataplane.cpp lines
137-147): resize to `n_frames * m_output_channels` when the size differs,
then fill the whole buffer with zeros — the result is always
`buffer_size` zeros. -/
def prepare_output_buffer (dp : AudioDataPlane) (n_frames : Nat) : AudioDataPlane :=
  let buffer_size := n_frames * dp.m_output_channels
  { dp with m_output_buffer := List.replicate buffer_size (0 : ℚ) }

/-- One sample of the preloaded-buffer fill loop (audiodataplane.cpp lines
39-50): `buffer_index` is computed in 32-bit `unsigned int` arithmetic;
in-range indices are copied, out-of-range ones become silence. -/
def renderSample (dp : AudioDataPlane) (read_pos i ch : Nat) : ℚ :=
  let buffer_index := ((read_pos + i) * dp.m_output_channels + ch) % UINT32
  if buffer_index < dp.m_preloaded_frames_buffer.length then
    dp.m_preloaded_frames_buffer.getD buffer_index 0
  else
    0

/-- The nested fill loop of `process_audio` (audiodataplane.cpp lines
35-52), row-major over frames and channels. -/
def renderFrames (dp : AudioDataPlane) (read_pos n_frames : Nat) : List ℚ :=
  (List.range n_frames).flatMap (fun i =>
    (List.range dp.m_output_channels).map (fun ch => dp.renderSample read_pos i ch))

/-- `AudioDataPlane::process_audio` (audiodataplane.cpp lines 7-64).
The `void*` buffers are optional sample lists (`none` = null pointer);
the input buffer is read but unused in the source (a TODO).  The device
buffer is overwritten on its first `n_frames * m_output_channels`
samples; `batch_time_ms` models the wall-clock measurement taken inside
the call.  The loop writes every index of the freshly prepared (zeroed)
per-track output buffer, so that buffer ends up equal to the rendered
samples. -/
def process_audio (dp : AudioDataPlane) (output_buffer : Option (List ℚ))
    (_input_buffer : Option (List ℚ)) (n_frames : Nat)
    (batch_time_ms stream_time : ℚ) : AudioDataPlane × Option (List ℚ) :=
  match output_buffer with
  | none => (dp, none)
  | some out =>
    if !dp.is_running then
      (dp, some (List.replicate (n_frames * dp.m_output_channels) (0 : ℚ)
                 ++ out.drop (n_frames * dp.m_output_channels)))
    else
      let dp1 := dp.prepare_output_buffer n_frames
      let read_pos := dp1.m_read_position
      let rendered := dp1.renderFrames read_pos n_frames
      let dp2 := { dp1 with
                     m_output_buffer := rendered,
                     m_read_position := (read_pos + n_frames) % UINT32,
                     m_audio_output_stats :=
                       updateAudioOutputStatistics dp1.m_audio_output_stats
                         n_frames batch_time_ms stream_time }
      (dp2, some (rendered ++ out.drop (n_frames * dp.m_output_channels)))

end AudioDataPlane

/-! ## Audio callback dispatch

Embedding of `src/data/audio/src/audiocallbackhandler.cpp`
(`miniaudioengine::data::AudioCallbackHandler::audio_callback`). -/

/-- `AudioCallbackContext` (audiocallbackhandler.h lines 11-14). -/
structure AudioCallbackContext where
  active_tracks : List AudioDataPlane
deriving Repr, DecidableEq

/-- The per-track mixing loop (audiocallbackhandler.cpp lines 48-53):
add the track buffer into the device buffer sample-wise, up to
`min(track_buffer.size(), total_samples)`. -/
def mixTrackIntoDevice (out_buffer track_buffer : List ℚ) (total_samples : Nat) : List ℚ :=
  let mix_samples := min track_buffer.length total_samples
  (List.range out_buffer.length).map (fun i =>
    if i < mix_samples then out_buffer.getD i 0 + track_buffer.getD i 0
    else out_buffer.getD i 0)

/-- `AudioCallbackHandler::audio_callback` (audiocallbackhandler.cpp lines
11-56).  Returns the `int` result code, the device buffer, and the
(possibly updated) callback context; each track's `process_audio` is
invoked with a null output pointer, then its output buffer is mixed into
the device buffer. -/
def audio_callback (user_data : Option AudioCallbackContext)
    (output_buffer : Option (List ℚ)) (input_buffer : Option (List ℚ))
    (n_frames : Nat) (batch_time_ms stream_time : ℚ) :
    Int × Option (List ℚ) × Option AudioCallbackContext :=
  match user_data with
  | none => (1, output_buffer, none)
  | some context =>
    match output_buffer with
    | none => (0, none, some context)
    | some out_buffer =>
      match context.active_tracks with
      | [] => (0, some out_buffer, some context)
      | first :: _ =>
        let output_channels := first.m_output_channels
        let total_samples := n_frames * output_channels
        if total_samples = 0 then (0, some out_buffer, some context)
        else
          let zeroed := List.replicate total_samples (0 : ℚ) ++ out_buffer.drop total_samples
          let fin := context.active_tracks.foldl
            (fun (acc : List ℚ × List AudioDataPlane) track_data =>
              let res := track_data.process_audio none input_buffer n_frames
                           batch_time_ms stream_time
              (mixTrackIntoDevice acc.1 res.1.m_output_buffer total_samples,
               acc.2 ++ [res.1]))
            (zeroed, [])
          (0, some fin.1, some { context with active_tracks := fin.2 })

/-! ## Track audio data plane (streaming ring-buffer variant)

Embedding of `src/dataplane/audio/src/trackaudiodataplane.cpp`
(`MinimalAudioEngine::Data::TrackAudioDataPlane::process_audio`), fields
from `src/dataplane/audio/include/trackaudiodataplane.h`.  The source
instantiates the ring with `Size = BUFFER_FRAMES = 8192`; the size is
kept as a parameter. -/

structure TrackAudioDataPlane (Size : Nat) where
  p_output_buffer : LockfreeRingBuffer ℚ Size
  m_wav_file_read_stats : AudioOutputStatistics
  m_audio_output_stats : AudioOutputStatistics
  m_stop_command : Bool
  m_input_channels : Nat
  m_output_channels : Nat
deriving Repr, DecidableEq

/-- The per-frame pop loop (trackaudiodataplane.cpp lines 34-42): pop one
sample per input channel; on the first failed pop, stop and report a
buffer underrun.  The `0` passed to `try_pop` models the indeterminate
initial contents of the `input_samples` stack array (never observed).
Returns (samples read, ring afterwards, underrun flag). -/
def readFrame {Size : Nat} (rb : LockfreeRingBuffer ℚ Size) :
    Nat → List ℚ × LockfreeRingBuffer ℚ Size × Bool
  | 0 => ([], rb, false)
  | k + 1 =>
    let res := rb.try_pop 0
    if res.1 then
      let rest := readFrame res.2.2 k
      (res.2.1 :: rest.1, rest.2.1, rest.2.2)
    else
      ([], res.2.2, true)

/-- The channel-mapping step (trackaudiodataplane.cpp lines 53-64):
mono input is duplicated across all output channels; otherwise matching
channels are copied and the remaining output channels are zeroed. -/
def remapFrame (input_samples : List ℚ) (Ci Co : Nat) : List ℚ :=
  if Ci = 1 ∧ Co > 1 then
    List.replicate Co (input_samples.getD 0 0)
  else
    (List.range Co).map (fun ch => if ch < Ci then input_samples.getD ch 0 else 0)

/-- The frame loop of `TrackAudioDataPlane::process_audio`
(trackaudiodataplane.cpp lines 31-65), processing frames left to right:
each frame pops its input samples; an underrun yields a zero frame and
one underrun count; otherwise the frame is channel-remapped.  Returns
(device samples row-major, ring afterwards, underrun increments). -/
def processFrames {Size : Nat} (rb : LockfreeRingBuffer ℚ Size) (Ci Co : Nat) :
    Nat → List ℚ × LockfreeRingBuffer ℚ Size × Nat
  | 0 => ([], rb, 0)
  | n + 1 =>
    let fr := readFrame rb Ci
    let frame := if fr.2.2 then List.replicate Co (0 : ℚ) else remapFrame fr.1 Ci Co
    let rest := processFrames fr.2.1 Ci Co n
    (frame ++ rest.1, rest.2.1, (if fr.2.2 then 1 else 0) + rest.2.2)

namespace TrackAudioDataPlane

/-- `TrackAudioDataPlane::process_audio` (trackaudiodataplane.cpp lines
5-96). -/
def process_audio {Size : Nat} (dp : TrackAudioDataPlane Size)
    (output_buffer : Option (List ℚ)) (_input_buffer : Option (List ℚ))
    (n_frames : Nat) (batch_time_ms stream_time : ℚ) :
    TrackAudioDataPlane Size × Option (List ℚ) :=
  match output_buffer with
  | none => (dp, none)
  | some out =>
    if dp.m_stop_command then
      (dp, some (List.replicate (n_frames * dp.m_output_channels) (0 : ℚ)
                 ++ out.drop (n_frames * dp.m_output_channels)))
    else
      let res := processFrames dp.p_output_buffer dp.m_input_channels
                   dp.m_output_channels n_frames
      let stats1 := { dp.m_audio_output_stats with
                        underrun_count := dp.m_audio_output_stats.underrun_count + res.2.2 }
      let dp2 := { dp with
                     p_output_buffer := res.2.1,
                     m_audio_output_stats :=
                       updateAudioOutputStatistics stats1 n_frames batch_time_ms stream_time }
      (dp2, some (res.1 ++ out.drop (n_frames * dp.m_output_channels)))

end TrackAudioDataPlane

/-! ## MIDI data plane and callback

Embedding of `src/dataplane/midi/src/trackmididataplane.cpp`,
`src/dataplane/midi/src/midicallbackhandler.cpp` and the types of
`src/controlplane/midi/include/miditypes.h`. -/

/-- `midi_message_type_names` (miditypes.h lines 38-59); the
`eMidiMessageType` enumerators are their underlying byte values. -/
def midi_message_type_names : List (Nat × String) :=
  [(0x80, "Note Off"), (0x90, "Note On"), (0xA0, "Polyphonic Key Pressure"),
   (0xB0, "Control Change"), (0xC0, "Program Change"), (0xD0, "Channel Pressure"),
   (0xE0, "Pitch Bend Change"), (0xF0, "System Exclusive"),
   (0xF1, "MIDI Time Code Quarter Frame"), (0xF2, "Song Position Pointer"),
   (0xF3, "Song Select"), (0xF6, "Tune Request"), (0xF7, "End of SysEx"),
   (0xF8, "Timing Clock"), (0xFA, "Start"), (0xFB, "Continue"), (0xFC, "Stop"),
   (0xFE, "Active Sensing"), (0xFF, "System Reset")]

/-- `MidiMessage` (miditypes.h lines 73-99).  `type` holds the underlying
byte value of the `eMidiMessageType` cast. -/
structure MidiMessage where
  deltatime : ℚ
  status : Nat
  type : Nat
  channel : Nat
  data1 : Nat
  data2 : Nat
  type_name : String
deriving Repr, DecidableEq

/-- `MidiInputStatistics` (trackmididataplane.h lines 20-33). -/
structure MidiInputStatistics where
  total_messages_processed : Nat
deriving Repr, DecidableEq

/-- `TrackMidiDataPlane` (trackmididataplane.h lines 39-84). -/
structure TrackMidiDataPlane where
  m_midi_input_stats : MidiInputStatistics
  m_stop_command : Bool
deriving Repr, DecidableEq

namespace TrackMidiDataPlane

/-- `TrackMidiDataPlane::is_running` (trackmididataplane.h lines 50-53). -/
def is_running (dp : TrackMidiDataPlane) : Bool :=
  !dp.m_stop_command

/-- `TrackMidiDataPlane::update_midi_input_statistics`
(trackmididataplane.cpp lines 22-25). -/
def update_midi_input_statistics (dp : TrackMidiDataPlane) (_m : MidiMessage) :
    TrackMidiDataPlane :=
  { dp with m_midi_input_stats :=
      { total_messages_processed := dp.m_midi_input_stats.total_messages_processed + 1 } }

/-- `TrackMidiDataPlane::process_midi_message` (trackmididataplane.cpp
lines 8-20). -/
def process_midi_message (dp : TrackMidiDataPlane) (m : MidiMessage) :
    TrackMidiDataPlane :=
  if dp.m_stop_command then dp
  else dp.update_midi_input_statistics m

end TrackMidiDataPlane

/-- `MidiCallbackContext` (midicallbackhandler.h). -/
structure MidiCallbackContext where
  active_tracks : List TrackMidiDataPlane
deriving Repr, DecidableEq

/-- The message-parsing block of `MidiCallbackHandler::midi_callback`
(midicallbackhandler.cpp lines 36-57): bytes are `unsigned char`
values. -/
def decode_midi_message (deltatime : ℚ) (message : List Nat) : MidiMessage :=
  let status := message.getD 0 0
  let type := status &&& 0xF0
  { deltatime := deltatime
    status := status
    type := type
    channel := status &&& 0x0F
    data1 := if message.length > 1 then message.getD 1 0 else 0
    data2 := if message.length > 2 then message.getD 2 0 else 0
    type_name := ((midi_message_type_names.find? (fun p => p.1 == type)).map
                    Prod.snd).getD "Unknown MIDI Message" }

/-- `MidiCallbackHandler::midi_callback` (midicallbackhandler.cpp lines
19-69).  A null message or null user pointer returns after logging; an
empty byte vector makes `message->at(0)` raise `std::out_of_range`,
swallowed by the surrounding try/catch, so nothing is dispatched. -/
def midi_callback (deltatime : ℚ) (message : Option (List Nat))
    (user_data : Option MidiCallbackContext) : Option MidiCallbackContext :=
  match message, user_data with
  | none, ud => ud
  | some _, none => none
  | some bytes, some context =>
    match bytes with
    | [] => some context
    | _ :: _ =>
      let midi_message := decode_midi_message deltatime bytes
      some { context with
               active_tracks := context.active_tracks.map
                 (fun track_dp => track_dp.process_midi_message midi_message) }

/-! ## Audio stream controller

Embedding of `src/control/audio/src/audiocontroller.cpp`
(`IAudioController::validate_start_preconditions`,
`IAudioController::register_dataplanes`) and
`src/control/audio/src/audiostreamcontroller.cpp`
(`AudioStreamController::start`, `AudioStreamController::stop`).
Backend (RtAudio) results are boolean inputs. -/

/-- `eAudioState` (audiocontroller.h lines 27-32). -/
inductive eAudioState where
  | Idle
  | Stopped
  | Playing
deriving Repr, DecidableEq

/-- Controller state: `m_has_output_device` models a set
`m_audio_output_device` whose `dynamic_pointer_cast<AudioDevice>`
succeeds; the always-allocated `m_callback_context` is its
`active_tracks` vector. -/
structure AudioControllerState where
  m_stream_state : eAudioState
  m_has_output_device : Bool
  m_device_output_channels : Nat
  m_registered_dataplanes : List AudioDataPlane
  m_active_tracks : List AudioDataPlane
deriving Repr, DecidableEq

/-- `IAudioController::validate_start_preconditions` (audiocontroller.cpp
lines 9-32).  The `m_callback_context` null check cannot fire: the
context is allocated in the `IAudioController` constructor. -/
def validate_start_preconditions (s : AudioControllerState) : Bool :=
  if s.m_stream_state = eAudioState.Playing then false
  else if !s.m_has_output_device then false
  else true

/-- `IAudioController::register_dataplanes` (audiocontroller.cpp lines
34-72): with no registered data planes, fail before touching the
context; otherwise rebuild the active list (every registered plane is an
`AudioDataPlane`, so every cast succeeds) and, when a device is set,
write its output channel count into each active plane.  The planes are
shared pointers, so the update is visible through
`m_registered_dataplanes` as well. -/
def register_dataplanes (s : AudioControllerState) : Bool × AudioControllerState :=
  if s.m_registered_dataplanes.isEmpty then (false, s)
  else
    let planes :=
      if s.m_has_output_device then
        s.m_registered_dataplanes.map
          (fun dp => { dp with m_output_channels := s.m_device_output_channels })
      else s.m_registered_dataplanes
    let s1 := { s with m_active_tracks := planes, m_registered_dataplanes := planes }
    if s1.m_active_tracks.isEmpty then (false, s1) else (true, s1)

namespace AudioStreamController

/-- `AudioStreamController::start` (audiostreamcontroller.cpp lines
26-90).  `open_ok` and `start_ok` are the backend results of
`openStream` and `startStream`. -/
def start (s : AudioControllerState) (open_ok start_ok : Bool) :
    Bool × AudioControllerState :=
  if !validate_start_preconditions s then (false, s)
  else
    let reg := register_dataplanes s
    if !reg.1 then (false, reg.2)
    else if !reg.2.m_has_output_device then (false, reg.2)
    else if !open_ok then (false, reg.2)
    else if !start_ok then (false, reg.2)
    else (true, { reg.2 with m_stream_state := eAudioState.Playing })

/-- `AudioStreamController::stop` (audiostreamcontroller.cpp lines
92-123).  `is_stream_running` and `stop_ok` are the backend results of
`isStreamRunning` and `stopStream`; `closeStream` has no modelled
effect. -/
def stop (s : AudioControllerState) (is_stream_running stop_ok : Bool) :
    Bool × AudioControllerState :=
  if s.m_stream_state ≠ eAudioState.Playing then (false, s)
  else if is_stream_running ∧ !stop_ok then (false, s)
  else (true, { s with m_registered_dataplanes := [],
                       m_stream_state := eAudioState.Stopped })

end AudioStreamController

/-! ## MIDI port controller

Embedding of `src/control/midi/src/midiportcontroller.cpp`
(`MidiPortController::open_input_port`, `close_input_port`). -/

inductive MidiPortError where
  | outOfRange
deriving Repr, DecidableEq

/-- Controller state; the `m_ignore_*` flags record the arguments of the
backend `ignoreTypes(midiSysex, midiTime, midiSense)` call (`true` =
that message category is ignored). -/
structure MidiPortControllerState where
  m_port_count : Nat
  m_registered_dataplanes : List TrackMidiDataPlane
  m_active_tracks : List TrackMidiDataPlane
  m_port_open : Bool
  m_callback_registered : Bool
  m_ignore_sysex : Bool
  m_ignore_time : Bool
  m_ignore_sense : Bool
deriving Repr, DecidableEq

namespace MidiPortController

/-- `MidiPortController::close_input_port` (midiportcontroller.cpp lines
102-118): idempotent. -/
def close_input_port (s : MidiPortControllerState) : MidiPortControllerState :=
  if !s.m_port_open then s
  else { s with m_port_open := false }

/-- `MidiPortController::open_input_port` (midiportcontroller.cpp lines
44-98).  `open_ok` is whether the backend `openPort` call succeeds (an
`RtMidiError` there is caught and logged).  The `m_callback_context`
null check cannot fire: the context is allocated in the constructor.
Every registered data plane is a `MidiDataPlane`, so every cast in the
active-list rebuild succeeds. -/
def open_input_port (s : MidiPortControllerState) (port_number : Nat)
    (open_ok : Bool) : Except MidiPortError MidiPortControllerState :=
  if port_number ≥ s.m_port_count then .error .outOfRange
  else
    let s1 := if s.m_port_open then close_input_port s else s
    let s2 := { s1 with m_active_tracks := s1.m_registered_dataplanes }
    if s2.m_active_tracks.isEmpty then .ok s2
    else
      let s3 := { s2 with m_callback_registered := true,
                          m_ignore_sysex := false,
                          m_ignore_time := true,
                          m_ignore_sense := true }
      if !open_ok then .ok s3
      else .ok { s3 with m_port_open := true }

end MidiPortController

/-! ## Track hierarchy

`Track::add_child_track` and the parent/child bookkeeping it uses are
not part of the source tree under `src/` — only their callers
(`src/controlplane/trackmanager/src/trackmanager.cpp`,
`src/control/trackmanager/src/trackmanager.cpp`) are.  The hierarchy
operations are therefore modelled from the spec. -/

/-- A track forest: association list mapping a track id to its parent id
(a track with no entry is detached / a root).  At most one entry per
child id is maintained by the operations. -/
abbrev TrackForest : Type := List (Nat × Nat)

namespace TrackForest

/-- The parent of a track, if any. -/
def parentOf (t : TrackForest) (x : Nat) : Option Nat :=
  (t.find? (fun e => e.1 == x)).map (·.2)

/-- The node reached after `k` parent steps from `x`, or `none` if the
chain ends earlier. -/
def iterParent (t : TrackForest) : Nat → Nat → Option Nat
  | 0, x => some x
  | k + 1, x =>
    match parentOf t x with
    | none => none
    | some p => iterParent t k p

/-- The chain of ancestors of `x`, walked with explicit fuel. -/
def ancestorsFuel (t : TrackForest) : Nat → Nat → List Nat
  | 0, _ => []
  | k + 1, x =>
    match parentOf t x with
    | none => []
    | some p => p :: ancestorsFuel t k p

/-- Decidable ancestor check used by `add_child`: in a forest with
`t.length` edges, any ancestor is reached within `t.length + 1` steps. -/
def isAncestor (t : TrackForest) (a c : Nat) : Bool :=
  (ancestorsFuel t (t.length + 1) c).contains a

/-- `a` is a proper ancestor of `c`: reachable by at least one parent
step. -/
def IsAncestorP (t : TrackForest) (a c : Nat) : Prop :=
  ∃ m, 0 < m ∧ iterParent t m c = some a

/-- Every parent chain terminates: the forest has no cycle. -/
def Acyclic (t : TrackForest) : Prop :=
  ∀ x, ∃ k, iterParent t k x = none

/-- Modelled from the spec: `Track::add_child(child)` is absent from
`src/` (only its callers appear there); §4.4 of the spec gives its
contract — "child must have no parent, must not be self, must not be an
ancestor; on success child's parent becomes self. Fails on cycle or
already-parented" — with error kind `CycleDetected` for the cycle case
(§7, §8 scenario 6). -/
inductive TrackError where
  | cycleDetected
  | alreadyParented
deriving Repr, DecidableEq

/-- Modelled from the spec (§4.4): attach `child` under `self`. -/
def add_child (t : TrackForest) (self child : Nat) :
    Except TrackError TrackForest :=
  if child = self then .error .cycleDetected
  else if isAncestor t child self then .error .cycleDetected
  else if (parentOf t child).isSome then .error .alreadyParented
  else .ok ((child, self) :: t)

/-- Modelled from the spec (§4.4): `remove_from_parent` detaches `child`;
a no-op when already detached. -/
def remove_from_parent (t : TrackForest) (child : Nat) : TrackForest :=
  t.filter (fun e => e.1 ≠ child)

/-- A hierarchy operation (spec §4.4). -/
inductive HierOp where
  | addChild (self child : Nat)
  | removeFromParent (child : Nat)

/-- Run a sequence of hierarchy operations; a failing `add_child` leaves
the forest unchanged. -/
def runHierOps (t : TrackForest) : List HierOp → TrackForest
  | [] => t
  | .addChild self child :: rest =>
    match add_child t self child with
    | .ok t1 => runHierOps t1 rest
    | .error _ => runHierOps t rest
  | .removeFromParent child :: rest =>
    runHierOps (remove_from_parent t child) rest

end TrackForest

namespace LockfreeRingBuffer

theorem size_eq_toList_length (rb : LockfreeRingBuffer α Size) (h : rb.WF) :
    rb.size = rb.toList.length := by
  obtain ⟨hw, hr, hlen⟩ := h
  unfold size toList
  by_cases hc : rb.m_read_index ≤ rb.m_write_index
  · simp [hc, List.length_drop, List.length_take, hlen]
    omega
  · simp [hc, List.length_drop, List.length_take, hlen]
    omega

theorem wf_init (a : α) (hS : 0 < Size) : (init a Size).WF := by
  refine ⟨hS, hS, ?_⟩
  simp [init]

theorem toList_init (a : α) : (init a Size).toList = [] := by
  simp [init, toList]

theorem wf_try_push (rb : LockfreeRingBuffer α Size) (a : α) (h : rb.WF) :
    (rb.try_push a).2.WF := by
  obtain ⟨hw, hr, hlen⟩ := h
  by_cases hc : (rb.m_write_index + 1) % Size = rb.m_read_index
  · have hsame : (rb.try_push a).2 = rb := by simp [try_push, hc]
    rw [hsame]; exact ⟨hw, hr, hlen⟩
  · have hupd : (rb.try_push a).2 =
        { rb with m_buffer := rb.m_buffer.set rb.m_write_index a,
                  m_write_index := (rb.m_write_index + 1) % Size } := by
      simp [try_push, hc]
    rw [hupd]
    exact ⟨Nat.mod_lt _ (by omega), hr, by simpa using hlen⟩

theorem wf_try_pop (rb : LockfreeRingBuffer α Size) (item : α) (h : rb.WF) :
    (rb.try_pop item).2.2.WF := by
  obtain ⟨hw, hr, hlen⟩ := h
  by_cases hc : rb.m_read_index = rb.m_write_index
  · have hsame : (rb.try_pop item).2.2 = rb := by simp [try_pop, hc]
    rw [hsame]; exact ⟨hw, hr, hlen⟩
  · have hupd : (rb.try_pop item).2.2 =
        { rb with m_read_index := (rb.m_read_index + 1) % Size } := by
      simp [try_pop, hc]
    rw [hupd]
    exact ⟨hw, Nat.mod_lt _ (by omega), hlen⟩

/-- A successful `try_push` appends the item at the tail of the FIFO. -/
theorem toList_try_push (rb : LockfreeRingBuffer α Size) (a : α) (h : rb.WF)
    (hok : (rb.try_push a).1 = true) :
    (rb.try_push a).2.toList = rb.toList ++ [a] := by
  obtain ⟨hw, hr, hlen⟩ := h
  have hfull : (rb.m_write_index + 1) % Size ≠ rb.m_read_index := by
    intro hc
    simp [try_push, hc] at hok
  set w := rb.m_write_index with hwdef
  set r := rb.m_read_index with hrdef
  have hset : rb.m_buffer.set w a = rb.m_buffer.take w ++ a :: rb.m_buffer.drop (w + 1) :=
    List.set_eq_take_cons_drop a (by omega)
  have hstep : rb.try_push a =
      (true, { rb with m_buffer := rb.m_buffer.set w a, m_write_index := (w + 1) % Size }) := by
    simp [try_push, hfull]
  rw [hstep]
  have hlentake : (rb.m_buffer.take w).length = w := by
    simp [List.length_take]; omega
  rcases Nat.lt_or_ge (w + 1) Size with hlt | hge
  · -- no wrap-around: the new write index is w + 1
    have hmod : (w + 1) % Size = w + 1 := Nat.mod_eq_of_lt hlt
    have htake : (rb.m_buffer.set w a).take (w + 1) = rb.m_buffer.take w ++ [a] := by
      rw [hset, List.take_append_eq_append_take, List.take_take,
          Nat.min_eq_right (Nat.le_succ w), hlentake, Nat.add_sub_cancel_left]
      simp
    rcases le_or_lt r w with hrw | hwr
    · -- read index at or below the write index: contiguous segment grows by one
      unfold toList
      dsimp only
      rw [hmod, if_pos (by omega : r ≤ w + 1), if_pos hrw, htake,
          List.drop_append_eq_append_drop, hlentake,
          (by omega : r - w = 0)]
      simp
    · -- wrapped segment: the write index stays strictly below the read index
      have hlt2 : w + 1 < r := by omega
      unfold toList
      dsimp only
      rw [hmod, if_neg (by omega : ¬ r ≤ w + 1), if_neg (by omega : ¬ r ≤ w),
          List.drop_set_of_lt _ _ (by omega), htake]
      simp
  · -- wrap-around: w + 1 = Size, the new write index is 0
    have hSize : w + 1 = Size := by omega
    have hmod : (w + 1) % Size = 0 := by rw [hSize, Nat.mod_self]
    have hr0 : r ≠ 0 := by rw [← hmod]; exact fun hc => hfull hc.symm
    have hdropnil : rb.m_buffer.drop (w + 1) = [] := by
      rw [List.drop_eq_nil_iff]; omega
    have hset2 : rb.m_buffer.set w a = rb.m_buffer.take w ++ [a] := by
      rw [hset, hdropnil]
    unfold toList
    dsimp only
    rw [hmod, if_neg (by omega : ¬ r ≤ 0), if_pos (by omega : r ≤ w), hset2,
        List.drop_append_eq_append_drop, hlentake,
        (by omega : r - w = 0)]
    simp

/-- A successful `try_pop` removes and returns the head of the FIFO. -/
theorem toList_try_pop (rb : LockfreeRingBuffer α Size) (item : α) (h : rb.WF)
    (hok : (rb.try_pop item).1 = true) :
    rb.toList = (rb.try_pop item).2.1 :: (rb.try_pop item).2.2.toList := by
  obtain ⟨hw, hr, hlen⟩ := h
  have hne : rb.m_read_index ≠ rb.m_write_index := by
    intro hc
    simp [try_pop, hc] at hok
  set w := rb.m_write_index with hwdef
  set r := rb.m_read_index with hrdef
  have hstep : rb.try_pop item =
      (true, rb.m_buffer.getD r item, { rb with m_read_index := (r + 1) % Size }) := by
    simp [try_pop, hne]
  rw [hstep]
  have hrlen : r < rb.m_buffer.length := by omega
  have hget : rb.m_buffer.getD r item = rb.m_buffer[r] := by
    simp [List.getD_eq_getElem?_getD, List.getElem?_eq_getElem hrlen]
  rcases le_or_lt r w with hrw | hwr
  · -- contiguous segment: pop takes its first element
    have hrltw : r < w := by omega
    have hmod : (r + 1) % Size = r + 1 := Nat.mod_eq_of_lt (by omega)
    unfold toList
    dsimp only
    rw [hmod, if_pos hrw, if_pos (by omega : r + 1 ≤ w)]
    rw [List.drop_eq_getElem_cons (by simp [List.length_take]; omega)]
    congr 1
    rw [hget, List.getElem_take]
  · -- wrapped segment: the head lives at the end of the array
    have hhead : rb.m_buffer.drop r = rb.m_buffer[r] :: rb.m_buffer.drop (r + 1) :=
      List.drop_eq_getElem_cons hrlen
    rcases Nat.lt_or_ge (r + 1) Size with hlt | hge
    · have hmod : (r + 1) % Size = r + 1 := Nat.mod_eq_of_lt hlt
      unfold toList
      dsimp only
      rw [hmod, if_neg (by omega : ¬ r ≤ w), if_neg (by omega : ¬ r + 1 ≤ w), hget]
      rw [hhead, List.cons_append]
    · have hSize : r + 1 = Size := by omega
      have hmod : (r + 1) % Size = 0 := by rw [hSize, Nat.mod_self]
      have hdropnil : rb.m_buffer.drop (r + 1) = [] := by
        rw [List.drop_eq_nil_iff]; omega
      unfold toList
      dsimp only
      rw [hmod, if_neg (by omega : ¬ r ≤ w), if_pos (by omega : 0 ≤ w), hhead, hdropnil, hget]
      simp

/-- `try_push` fails exactly on a full buffer (`Size - 1` stored elements). -/
theorem try_push_fail_iff (rb : LockfreeRingBuffer α Size) (a : α) (h : rb.WF) :
    (rb.try_push a).1 = false ↔ rb.size = Size - 1 := by
  obtain ⟨hw, hr, hlen⟩ := h
  set w := rb.m_write_index with hwdef
  set r := rb.m_read_index with hrdef
  have hfail : (rb.try_push a).1 = false ↔ (w + 1) % Size = r := by
    by_cases hc : (w + 1) % Size = r <;> simp [try_push, hc]
  rw [hfail]
  unfold size
  constructor
  · intro hc
    rcases Nat.lt_or_ge (w + 1) Size with hlt | hge
    · rw [Nat.mod_eq_of_lt hlt] at hc
      rw [if_neg (by omega)]
      omega
    · have hSize : w + 1 = Size := by omega
      rw [hSize, Nat.mod_self] at hc
      rw [if_pos (by omega)]
      omega
  · intro hc
    by_cases hrw : r ≤ w
    · rw [if_pos hrw] at hc
      have hSm1 : w = Size - 1 ∧ r = 0 := by omega
      rw [hSm1.1, hSm1.2, Nat.sub_add_cancel (by omega), Nat.mod_self]
    · rw [if_neg hrw] at hc
      have : r = w + 1 := by omega
      rw [this, Nat.mod_eq_of_lt (by omega)]

/-- `try_pop` fails exactly on an empty buffer. -/
theorem try_pop_fail_iff (rb : LockfreeRingBuffer α Size) (item : α) (h : rb.WF) :
    (rb.try_pop item).1 = false ↔ rb.toList = [] := by
  obtain ⟨hw, hr, hlen⟩ := h
  have hfail : (rb.try_pop item).1 = false ↔ rb.m_read_index = rb.m_write_index := by
    by_cases hc : rb.m_read_index = rb.m_write_index <;> simp [try_pop, hc]
  rw [hfail]
  unfold toList
  constructor
  · intro hc
    rw [hc, if_pos (Nat.le_refl _), List.drop_eq_nil_iff]
    simp [List.length_take]
  · intro hc
    by_cases hrw : rb.m_read_index ≤ rb.m_write_index
    · rw [if_pos hrw, List.drop_eq_nil_iff] at hc
      simp [List.length_take] at hc
      omega
    · rw [if_neg hrw] at hc
      rcases List.append_eq_nil.mp hc with ⟨hc1, _⟩
      rw [List.drop_eq_nil_iff] at hc1
      omega

/-- A failed `try_push` returns the buffer unchanged. -/
theorem try_push_of_fail (rb : LockfreeRingBuffer α Size) (a : α)
    (h : (rb.try_push a).1 = false) : (rb.try_push a).2 = rb := by
  by_cases hc : (rb.m_write_index + 1) % Size = rb.m_read_index
  · simp [try_push, hc]
  · simp [try_push, hc] at h

/-- A failed `try_pop` returns the buffer unchanged and does not write the
caller's item. -/
theorem try_pop_of_fail (rb : LockfreeRingBuffer α Size) (item : α)
    (h : (rb.try_pop item).1 = false) :
    (rb.try_pop item).2.1 = item ∧ (rb.try_pop item).2.2 = rb := by
  by_cases hc : rb.m_read_index = rb.m_write_index
  · simp [try_pop, hc]
  · simp [try_pop, hc] at h


theorem wf_runOps (dflt : α) (ops : List (RBOp α)) (rb : LockfreeRingBuffer α Size)
    (h : rb.WF) : (runOps dflt rb ops).1.WF := by
  induction ops generalizing rb with
  | nil => simpa [runOps] using h
  | cons op rest ih =>
    cases op with
    | push a => simpa [runOps] using ih _ (wf_try_push rb a h)
    | pop => simpa [runOps] using ih _ (wf_try_pop rb dflt h)

/-- FIFO invariant: the popped items followed by the remaining contents
equal the prior contents followed by the pushed items. -/
theorem runOps_fifo (dflt : α) (ops : List (RBOp α)) (rb : LockfreeRingBuffer α Size)
    (h : rb.WF) :
    (runOps dflt rb ops).2.2 ++ (runOps dflt rb ops).1.toList
      = rb.toList ++ (runOps dflt rb ops).2.1 := by
  induction ops generalizing rb with
  | nil => simp [runOps]
  | cons op rest ih =>
    cases op with
    | push a =>
      by_cases hok : (rb.try_push a).1 = true
      · have hwf := wf_try_push rb a h
        have htl := toList_try_push rb a h hok
        have := ih _ hwf
        simp only [runOps, hok, if_pos]
        rw [this, htl]
        simp
      · have hfalse : (rb.try_push a).1 = false := by
          simpa using hok
        have hsame := try_push_of_fail rb a hfalse
        have := ih _ (hsame ▸ h)
        simp only [runOps, hfalse]
        rw [this, hsame]
        simp
    | pop =>
      by_cases hok : (rb.try_pop dflt).1 = true
      · have hwf := wf_try_pop rb dflt h
        have htl := toList_try_pop rb dflt h hok
        have := ih _ hwf
        simp only [runOps, hok, if_pos]
        rw [List.cons_append, this, htl]
        simp
      · have hfalse : (rb.try_pop dflt).1 = false := by
          simpa using hok
        obtain ⟨-, hsame⟩ := try_pop_of_fail rb dflt hfalse
        have := ih _ (hsame ▸ h)
        simp only [runOps, hfalse, Bool.false_eq_true, if_false]
        rw [this, hsame]

/-- **C1**: For the SPSC ring buffer of template size `Size`:
`capacity()` returns `Size - 1`; after `N` successful `try_push` and `M`
successful `try_pop` operations from a fresh buffer (any interleaving,
no concurrency), `M ≤ N` and `size()` returns `N - M`; `try_push`
returns false exactly when the buffer holds `Size - 1` elements; and
`try_pop` returns the pushed elements in push order (FIFO): the popped
items followed by the remaining contents are exactly the accepted pushed
items. -/
theorem C1_spsc_ring_contract {α : Type} (Size : Nat) (dflt : α)
    (ops : List (RBOp α)) (hS : 0 < Size) :
    (init dflt Size).capacity = Size - 1 ∧
    (runOps dflt (init dflt Size) ops).2.2.length ≤
      (runOps dflt (init dflt Size) ops).2.1.length ∧
    (runOps dflt (init dflt Size) ops).1.size =
      (runOps dflt (init dflt Size) ops).2.1.length -
        (runOps dflt (init dflt Size) ops).2.2.length ∧
    (runOps dflt (init dflt Size) ops).2.2 ++ (runOps dflt (init dflt Size) ops).1.toList
      = (runOps dflt (init dflt Size) ops).2.1 ∧
    ∀ (rb : LockfreeRingBuffer α Size) (a : α), rb.WF →
      (((rb.try_push a).1 = false) ↔ rb.size = Size - 1) := by
  have hwf0 : (init dflt Size).WF := wf_init dflt hS
  have hfifo := runOps_fifo dflt ops (init dflt Size) hwf0
  rw [toList_init] at hfifo
  simp only [List.nil_append] at hfifo
  have hwfF := wf_runOps dflt ops (init dflt Size) hwf0
  have hsz := size_eq_toList_length _ hwfF
  have hlen := congrArg List.length hfifo
  simp only [List.length_append] at hlen
  refine ⟨rfl, by omega, by omega, hfifo, fun rb a h => try_push_fail_iff rb a h⟩

/-- Witness for C1: the contract instantiated at `Size = 4` with the
concrete operation sequence push 1, push 2, push 3, pop, pop. -/
theorem C1_spsc_ring_contract_witness :
    0 < 4 ∧
    ((init (0 : ℕ) 4).capacity = 4 - 1 ∧
     (runOps 0 (init (0 : ℕ) 4) [.push 1, .push 2, .push 3, .pop, .pop]).2.2.length ≤
       (runOps 0 (init (0 : ℕ) 4) [.push 1, .push 2, .push 3, .pop, .pop]).2.1.length ∧
     (runOps 0 (init (0 : ℕ) 4) [.push 1, .push 2, .push 3, .pop, .pop]).1.size =
       (runOps 0 (init (0 : ℕ) 4) [.push 1, .push 2, .push 3, .pop, .pop]).2.1.length -
         (runOps 0 (init (0 : ℕ) 4) [.push 1, .push 2, .push 3, .pop, .pop]).2.2.length ∧
     (runOps 0 (init (0 : ℕ) 4) [.push 1, .push 2, .push 3, .pop, .pop]).2.2 ++
         (runOps 0 (init (0 : ℕ) 4) [.push 1, .push 2, .push 3, .pop, .pop]).1.toList
       = (runOps 0 (init (0 : ℕ) 4) [.push 1, .push 2, .push 3, .pop, .pop]).2.1 ∧
     ∀ (rb : LockfreeRingBuffer ℕ 4) (a : ℕ), rb.WF →
       (((rb.try_push a).1 = false) ↔ rb.size = 4 - 1)) :=
  ⟨by decide, C1_spsc_ring_contract 4 0 [.push 1, .push 2, .push 3, .pop, .pop] (by decide)⟩

/-- **C10**: a failed ring buffer operation leaves the buffer completely
unchanged: a `try_push` that returns false (full buffer) leaves indices
and stored elements exactly as before, and a `try_pop` that returns
false (empty buffer) leaves the buffer unchanged and does not write the
caller's item reference. -/
theorem C10_failed_ring_ops_frame {α : Type} {Size : Nat}
    (rb : LockfreeRingBuffer α Size) (a item : α) :
    ((rb.try_push a).1 = false → (rb.try_push a).2 = rb) ∧
    ((rb.try_pop item).1 = false →
      (rb.try_pop item).2.1 = item ∧ (rb.try_pop item).2.2 = rb) :=
  ⟨try_push_of_fail rb a, try_pop_of_fail rb item⟩

/-- Witness for C10: a concrete full buffer refuses a push unchanged, and
a concrete empty buffer refuses a pop unchanged, leaving the item
untouched. -/
theorem C10_failed_ring_ops_frame_witness :
    (((LockfreeRingBuffer.mk [9, 9] 1 0 : LockfreeRingBuffer ℕ 2)).try_push 7).2 =
        LockfreeRingBuffer.mk [9, 9] 1 0 ∧
    ((init (0 : ℕ) 2).try_pop 5).2.1 = 5 ∧
    ((init (0 : ℕ) 2).try_pop 5).2.2 = init (0 : ℕ) 2 :=
  ⟨(C10_failed_ring_ops_frame (LockfreeRingBuffer.mk [9, 9] 1 0 : LockfreeRingBuffer ℕ 2) 7 5).1
     (by decide),
   (C10_failed_ring_ops_frame (init (0 : ℕ) 2) 7 5).2 (by decide)⟩

end LockfreeRingBuffer

namespace AudioDataPlane

theorem renderFrames_length (dp : AudioDataPlane) (read_pos n_frames : Nat) :
    (dp.renderFrames read_pos n_frames).length = n_frames * dp.m_output_channels := by
  induction n_frames with
  | zero => simp [renderFrames]
  | succ n ih =>
    unfold renderFrames at *
    rw [List.range_succ]
    simp only [List.flatMap_append, List.length_append, ih]
    simp [Nat.succ_mul]

theorem renderFrames_getD (dp : AudioDataPlane) (read_pos n_frames i ch : Nat)
    (hi : i < n_frames) (hch : ch < dp.m_output_channels) :
    (dp.renderFrames read_pos n_frames).getD (i * dp.m_output_channels + ch) 0
      = dp.renderSample read_pos i ch := by
  induction n_frames with
  | zero => omega
  | succ n ih =>
    unfold renderFrames at *
    rw [List.range_succ]
    simp only [List.flatMap_append, List.flatMap_cons, List.flatMap_nil, List.append_nil]
    have hlen : ((List.range n).flatMap (fun i =>
        (List.range dp.m_output_channels).map (fun ch => dp.renderSample read_pos i ch))).length
        = n * dp.m_output_channels := by
      have := renderFrames_length dp read_pos n
      unfold renderFrames at this
      exact this
    rcases Nat.lt_or_ge i n with hin | hin
    · rw [List.getD_append _ _ _ _ (by rw [hlen]; calc
        i * dp.m_output_channels + ch < i * dp.m_output_channels + dp.m_output_channels := by omega
        _ = (i + 1) * dp.m_output_channels := by ring
        _ ≤ n * dp.m_output_channels := Nat.mul_le_mul_right _ (by omega))]
      exact ih hin
    · have hieq : i = n := by omega
      subst hieq
      rw [List.getD_append_right _ _ _ _ (by rw [hlen]; omega), hlen]
      have : i * dp.m_output_channels + ch - i * dp.m_output_channels = ch := by omega
      rw [this]
      have hch' : ch < ((List.range dp.m_output_channels).map
          (fun ch => dp.renderSample read_pos i ch)).length := by simpa using hch
      rw [List.getD_eq_getElem _ _ hch']
      simp

/-- The running branch of `process_audio` as a single equation. -/
theorem process_audio_running_eq (dp : AudioDataPlane) (out : List ℚ)
    (inb : Option (List ℚ)) (n_frames : Nat) (bt st : ℚ)
    (hrun : dp.is_running = true) :
    dp.process_audio (some out) inb n_frames bt st =
      ({ dp with
           m_output_buffer := dp.renderFrames dp.m_read_position n_frames,
           m_read_position := (dp.m_read_position + n_frames) % UINT32,
           m_audio_output_stats :=
             updateAudioOutputStatistics dp.m_audio_output_stats n_frames bt st },
       some (dp.renderFrames dp.m_read_position n_frames
             ++ out.drop (n_frames * dp.m_output_channels))) := by
  have hprep : (dp.prepare_output_buffer n_frames).renderFrames dp.m_read_position n_frames
      = dp.renderFrames dp.m_read_position n_frames := rfl
  simp [process_audio, hrun, prepare_output_buffer]
  exact hprep

end AudioDataPlane

/-- **C4**: an audio callback on a data plane whose running flag is false
writes an all-zero slice of `n_frames * output_channels` samples to the
device buffer (leaving the rest untouched) and leaves the data plane —
in particular its whole statistics block — unchanged.  This holds for
both data plane variants: the preloaded-buffer `AudioDataPlane`
(audiodataplane.cpp lines 21-26) and the streaming
`TrackAudioDataPlane` (trackaudiodataplane.cpp lines 19-24). -/
theorem C4_stopped_callback_silence_and_stats {Size : Nat}
    (dp : AudioDataPlane) (tdp : TrackAudioDataPlane Size)
    (out tout : List ℚ) (inb : Option (List ℚ)) (n_frames : Nat) (bt st : ℚ)
    (hstop : dp.is_running = false) (htstop : tdp.m_stop_command = true) :
    (dp.process_audio (some out) inb n_frames bt st).1 = dp ∧
    (dp.process_audio (some out) inb n_frames bt st).1.m_audio_output_stats
      = dp.m_audio_output_stats ∧
    (dp.process_audio (some out) inb n_frames bt st).2 =
      some (List.replicate (n_frames * dp.m_output_channels) (0 : ℚ)
            ++ out.drop (n_frames * dp.m_output_channels)) ∧
    (tdp.process_audio (some tout) inb n_frames bt st).1 = tdp ∧
    (tdp.process_audio (some tout) inb n_frames bt st).1.m_audio_output_stats
      = tdp.m_audio_output_stats ∧
    (tdp.process_audio (some tout) inb n_frames bt st).2 =
      some (List.replicate (n_frames * tdp.m_output_channels) (0 : ℚ)
            ++ tout.drop (n_frames * tdp.m_output_channels)) := by
  refine ⟨?_, ?_, ?_, ?_, ?_, ?_⟩ <;>
    simp [AudioDataPlane.process_audio, TrackAudioDataPlane.process_audio, hstop, htstop]

/-- Witness for C4: a concrete stopped data plane of each variant. -/
theorem C4_stopped_callback_silence_and_stats_witness :
    ((AudioDataPlane.mk [5] [] .initial true 0 1 1).is_running = false ∧
     ((TrackAudioDataPlane.mk (.init 0 2) .initial .initial true 1 1 :
         TrackAudioDataPlane 2)).m_stop_command = true) ∧
    ((AudioDataPlane.mk [5] [] .initial true 0 1 1).process_audio
        (some [7, 7, 7]) none 2 0 0).1 = AudioDataPlane.mk [5] [] .initial true 0 1 1 ∧
    ((AudioDataPlane.mk [5] [] .initial true 0 1 1).process_audio
        (some [7, 7, 7]) none 2 0 0).2 = some [0, 0, 7] := by
  have h := C4_stopped_callback_silence_and_stats
    (AudioDataPlane.mk [5] [] .initial true 0 1 1)
    (TrackAudioDataPlane.mk (.init 0 2) .initial .initial true 1 1 :
      TrackAudioDataPlane 2)
    [7, 7, 7] [] none 2 0 0 (by decide) (by decide)
  exact ⟨⟨by decide, by decide⟩, h.1, by rw [h.2.2.1]; decide⟩

/-- Counterexample to **C2** as stated: with a preloaded source of
`L = 1` frame, read cursor `r = 0` and `n_frames = 2`, the code advances
the read cursor to `2`, not to `min(r + n_frames, L) = 1` — the cursor
does exceed the preloaded buffer frame count
(`m_read_position.fetch_add(n_frames)` at audiodataplane.cpp line 60 is
unconditional). -/
theorem C2_read_cursor_counterexample :
    ((AudioDataPlane.mk [5] [] .initial false 0 1 1).process_audio
        (some [0, 0]) none 2 0 0).1.m_read_position = 2 ∧
    ¬ (((AudioDataPlane.mk [5] [] .initial false 0 1 1).process_audio
        (some [0, 0]) none 2 0 0).1.m_read_position = min (0 + 2) 1) := by
  constructor
  · decide
  · decide

/-- **C2 (amended)**: on a running data plane the audio callback advances
the read cursor unconditionally to `(r + n_frames) mod 2^32` — it is not
clamped to the preloaded length and can exceed it.  The output slice is
still as specified: the samples at `[r, min(r + n_frames, L))` appear in
the output buffer and positions past the preloaded data are zero-filled;
samples beyond the written `n_frames * output_channels` slice are left
untouched. -/
theorem C2_read_cursor_and_output (dp : AudioDataPlane) (out : List ℚ)
    (inb : Option (List ℚ)) (n_frames : Nat) (bt st : ℚ)
    (hrun : dp.is_running = true)
    (hnowrap : (dp.m_read_position + n_frames) * dp.m_output_channels < UINT32)
    (hout : n_frames * dp.m_output_channels ≤ out.length) :
    (dp.process_audio (some out) inb n_frames bt st).1.m_read_position
      = (dp.m_read_position + n_frames) % UINT32 ∧
    ∃ out', (dp.process_audio (some out) inb n_frames bt st).2 = some out' ∧
      out'.length = out.length ∧
      (∀ i ch, i < n_frames → ch < dp.m_output_channels →
        out'.getD (i * dp.m_output_channels + ch) 0 =
          if (dp.m_read_position + i) * dp.m_output_channels + ch
               < dp.m_preloaded_frames_buffer.length then
            dp.m_preloaded_frames_buffer.getD
              ((dp.m_read_position + i) * dp.m_output_channels + ch) 0
          else 0) ∧
      (∀ j, n_frames * dp.m_output_channels ≤ j → out'.getD j 0 = out.getD j 0) := by
  rw [AudioDataPlane.process_audio_running_eq dp out inb n_frames bt st hrun]
  refine ⟨rfl, dp.renderFrames dp.m_read_position n_frames
              ++ out.drop (n_frames * dp.m_output_channels), rfl, ?_, ?_, ?_⟩
  · rw [List.length_append, AudioDataPlane.renderFrames_length, List.length_drop]
    omega
  · intro i ch hi hch
    have hidx : i * dp.m_output_channels + ch
        < (dp.renderFrames dp.m_read_position n_frames).length := by
      rw [AudioDataPlane.renderFrames_length]
      calc i * dp.m_output_channels + ch
          < i * dp.m_output_channels + dp.m_output_channels := by omega
        _ = (i + 1) * dp.m_output_channels := by ring
        _ ≤ n_frames * dp.m_output_channels := Nat.mul_le_mul_right _ (by omega)
    rw [List.getD_append _ _ _ _ hidx,
        AudioDataPlane.renderFrames_getD dp _ _ _ _ hi hch]
    unfold AudioDataPlane.renderSample
    have hsmall : (dp.m_read_position + i) * dp.m_output_channels + ch < UINT32 := by
      calc (dp.m_read_position + i) * dp.m_output_channels + ch
          < (dp.m_read_position + i) * dp.m_output_channels + dp.m_output_channels := by omega
        _ = (dp.m_read_position + i + 1) * dp.m_output_channels := by ring
        _ ≤ (dp.m_read_position + n_frames) * dp.m_output_channels :=
            Nat.mul_le_mul_right _ (by omega)
        _ < UINT32 := hnowrap
    rw [Nat.mod_eq_of_lt hsmall]
  · intro j hj
    rw [List.getD_append_right _ _ _ _
          (by rw [AudioDataPlane.renderFrames_length]; omega),
        AudioDataPlane.renderFrames_length]
    rw [List.getD_eq_getElem?_getD, List.getElem?_drop, List.getD_eq_getElem?_getD]
    congr 2
    omega

/-- Witness for C2 (amended): a running mono plane with a 3-sample
preload, cursor 1, 3 frames requested over a 4-slot device buffer. -/
theorem C2_read_cursor_and_output_witness :
    ((AudioDataPlane.mk [2, 4, 6] [] .initial false 1 1 1).is_running = true ∧
     (1 + 3) * 1 < UINT32 ∧ 3 * 1 ≤ 4) ∧
    (((AudioDataPlane.mk [2, 4, 6] [] .initial false 1 1 1).process_audio
        (some [9, 9, 9, 9]) none 3 0 0).1.m_read_position = (1 + 3) % UINT32 ∧
     ∃ out', ((AudioDataPlane.mk [2, 4, 6] [] .initial false 1 1 1).process_audio
        (some [9, 9, 9, 9]) none 3 0 0).2 = some out' ∧
      out'.length = 4 ∧
      (∀ i ch, i < 3 → ch < 1 →
        out'.getD (i * 1 + ch) 0 =
          if (1 + i) * 1 + ch < 3 then [(2 : ℚ), 4, 6].getD ((1 + i) * 1 + ch) 0 else 0) ∧
      (∀ j, 3 * 1 ≤ j → out'.getD j 0 = [(9 : ℚ), 9, 9, 9].getD j 0)) :=
  ⟨⟨by decide, by norm_num [UINT32], by decide⟩,
   C2_read_cursor_and_output (AudioDataPlane.mk [2, 4, 6] [] .initial false 1 1 1)
     [9, 9, 9, 9] none 3 0 0 (by decide) (by norm_num [UINT32]) (by decide)⟩

/-- The non-mono branch of the channel map, as take-and-pad. -/
theorem remapFrame_eq_take_pad (s : List ℚ) (Ci Co : Nat) (hs : s.length = Ci)
    (hnm : ¬(Ci = 1 ∧ Co > 1)) :
    remapFrame s Ci Co = s.take Co ++ List.replicate (Co - Ci) (0 : ℚ) := by
  unfold remapFrame
  rw [if_neg hnm]
  apply List.ext_getElem
  · simp [List.length_take]
    omega
  · intro i h1 h2
    simp only [List.getElem_map, List.getElem_range]
    have hi : i < Co := by simpa using h1
    by_cases hic : i < Ci
    · rw [if_pos hic, List.getElem_append_left (by simp [List.length_take]; omega)]
      rw [List.getElem_take]
      rw [List.getD_eq_getElem _ _ (by omega)]
    · rw [if_neg hic, List.getElem_append_right (by simp [List.length_take]; omega)]
      simp

/-- **C5**: the channel remap of the streaming track audio data plane
(input channels `Ci`, output channels `Co`, one frame of `Ci` popped
samples): equal counts copy straight through; mono is duplicated across
all `Co` outputs; with more inputs than outputs only the first `Co`
channels are copied; with fewer (non-mono) inputs the matching channels
are copied and the rest zero-filled.  In particular a mono source
`[0.5, -0.5, 1.0, -1.0]` played through `process_audio` with 2 output
channels and 4 frames yields `[0.5, 0.5, -0.5, -0.5, 1, 1, -1, -1]`
(ring instantiated at the source's `BUFFER_FRAMES = 8192`). -/
theorem C5_channel_remap (s : List ℚ) (Ci Co : Nat) (hs : s.length = Ci) :
    (Ci = Co → remapFrame s Ci Co = s) ∧
    (Ci = 1 → 1 < Co → remapFrame s Ci Co = List.replicate Co (s.getD 0 0)) ∧
    (Co < Ci → remapFrame s Ci Co = s.take Co) ∧
    (Ci < Co → Ci ≠ 1 → remapFrame s Ci Co = s ++ List.replicate (Co - Ci) (0 : ℚ)) ∧
    (((TrackAudioDataPlane.mk
        ((((((LockfreeRingBuffer.init (0 : ℚ) 8192).try_push (1/2)).2.try_push
            (-1/2)).2.try_push 1).2.try_push (-1)).2)
        .initial .initial false 1 2 : TrackAudioDataPlane 8192)).process_audio
        (some (List.replicate 8 (9 : ℚ))) none 4 0 0).2 =
      some [1/2, 1/2, -1/2, -1/2, 1, 1, -1, -1] := by
  refine ⟨?_, ?_, ?_, ?_, by rfl⟩
  · intro hco
    subst hco
    rcases Nat.eq_zero_or_pos Ci with h0 | hpos
    · subst h0
      simp [remapFrame]
      exact List.eq_nil_of_length_eq_zero hs
    · rw [remapFrame_eq_take_pad s Ci Ci hs (by omega)]
      simp [← hs]
  · intro h1 hCo
    simp [remapFrame, h1, hCo]
  · intro hlt
    rw [remapFrame_eq_take_pad s Ci Co hs (by omega)]
    simp [Nat.sub_eq_zero_of_le (by omega : Co ≤ Ci)]
  · intro hlt hne
    rw [remapFrame_eq_take_pad s Ci Co hs (by omega)]
    rw [List.take_of_length_le (by omega)]

/-- Witness for C5: the remap rules instantiated for a stereo frame
copied straight through (`Ci = Co = 2`). -/
theorem C5_channel_remap_witness :
    ([(3 : ℚ), 7].length = 2) ∧
    (2 = 2 → remapFrame [(3 : ℚ), 7] 2 2 = [(3 : ℚ), 7]) := by
  have h := C5_channel_remap [(3 : ℚ), 7] 2 2 (by decide)
  exact ⟨by decide, h.1⟩

/-- **C3**: a MIDI callback delivering raw bytes `b0 :: rest` to the
registered data planes decodes the message with kind `status & 0xF0`,
channel `status & 0x0F`, `data1 = bytes[1]` if present else 0,
`data2 = bytes[2]` if present else 0, forwards it to every active
track's data plane, and each data plane's `total_messages_processed`
counter grows by exactly one iff that data plane is running. -/
theorem C3_midi_decode_and_count (dt : ℚ) (b0 : Nat) (rest : List Nat)
    (ctx : MidiCallbackContext) :
    midi_callback dt (some (b0 :: rest)) (some ctx) =
      some { active_tracks := ctx.active_tracks.map
               (fun dp => dp.process_midi_message (decode_midi_message dt (b0 :: rest))) } ∧
    (decode_midi_message dt (b0 :: rest)).status = b0 ∧
    (decode_midi_message dt (b0 :: rest)).type = b0 &&& 0xF0 ∧
    (decode_midi_message dt (b0 :: rest)).channel = b0 &&& 0x0F ∧
    (decode_midi_message dt (b0 :: rest)).data1
      = (if 1 ≤ rest.length then rest.getD 0 0 else 0) ∧
    (decode_midi_message dt (b0 :: rest)).data2
      = (if 2 ≤ rest.length then rest.getD 1 0 else 0) ∧
    ∀ dp ∈ ctx.active_tracks,
      (dp.process_midi_message
          (decode_midi_message dt (b0 :: rest))).m_midi_input_stats.total_messages_processed
        = dp.m_midi_input_stats.total_messages_processed
          + (if dp.is_running = true then 1 else 0) := by
  refine ⟨rfl, rfl, rfl, rfl, ?_, ?_, ?_⟩
  · rcases rest with - | ⟨b1, rest2⟩ <;> simp [decode_midi_message]
  · rcases rest with - | ⟨b1, rest2⟩
    · simp [decode_midi_message]
    · rcases rest2 with - | ⟨b2, rest3⟩ <;> simp [decode_midi_message]
  · intro dp _
    by_cases hstop : dp.m_stop_command
    · simp [TrackMidiDataPlane.process_midi_message, TrackMidiDataPlane.is_running, hstop]
    · simp [TrackMidiDataPlane.process_midi_message, TrackMidiDataPlane.is_running, hstop,
            TrackMidiDataPlane.update_midi_input_statistics]

/-- Witness for C3: a Note On message `[0x92, 60, 100]` delivered to one
running and one stopped data plane. -/
theorem C3_midi_decode_and_count_witness :
    (decode_midi_message 0 [0x92, 60, 100]).type = 0x92 &&& 0xF0 ∧
    (decode_midi_message 0 [0x92, 60, 100]).channel = 0x92 &&& 0x0F ∧
    (decode_midi_message 0 [0x92, 60, 100]).data1 = 60 ∧
    (decode_midi_message 0 [0x92, 60, 100]).data2 = 100 ∧
    (midi_callback 0 (some [0x92, 60, 100])
        (some (MidiCallbackContext.mk
          [TrackMidiDataPlane.mk (MidiInputStatistics.mk 5) false,
           TrackMidiDataPlane.mk (MidiInputStatistics.mk 5) true]))).map
      (fun c => c.active_tracks.map
        (fun dp => dp.m_midi_input_stats.total_messages_processed)) = some [6, 5] := by
  have h := C3_midi_decode_and_count 0 0x92 [60, 100]
    (MidiCallbackContext.mk
      [TrackMidiDataPlane.mk (MidiInputStatistics.mk 5) false,
       TrackMidiDataPlane.mk (MidiInputStatistics.mk 5) true])
  refine ⟨h.2.2.1, h.2.2.2.1, by decide, by decide, ?_⟩
  rw [h.1]
  decide

theorem mixTrackIntoDevice_length (out_buffer track_buffer : List ℚ) (total : Nat) :
    (mixTrackIntoDevice out_buffer track_buffer total).length = out_buffer.length := by
  simp [mixTrackIntoDevice]

theorem mixTrackIntoDevice_getD (out_buffer track_buffer : List ℚ) (total j : Nat)
    (hj : j < out_buffer.length) :
    (mixTrackIntoDevice out_buffer track_buffer total).getD j 0 =
      out_buffer.getD j 0 +
        (if j < min track_buffer.length total then track_buffer.getD j 0 else 0) := by
  unfold mixTrackIntoDevice
  have hj' : j < ((List.range out_buffer.length).map (fun i =>
      if i < min track_buffer.length total
      then out_buffer.getD i 0 + track_buffer.getD i 0
      else out_buffer.getD i 0)).length := by simpa using hj
  rw [List.getD_eq_getElem _ _ hj']
  simp only [List.getElem_map, List.getElem_range]
  by_cases hc : j < min track_buffer.length total
  · rw [if_pos hc, if_pos hc]
  · rw [if_neg hc, if_neg hc, add_zero]

/-- `process_audio` with a null device pointer returns immediately and
changes nothing (audiodataplane.cpp lines 16-17). -/
theorem AudioDataPlane.process_audio_none (dp : AudioDataPlane)
    (inb : Option (List ℚ)) (n : Nat) (bt st : ℚ) :
    dp.process_audio none inb n bt st = (dp, none) := rfl

/-- Behaviour of the mixing fold of `audio_callback`. -/
theorem audio_callback_foldl_mix (ts : List AudioDataPlane) (buf : List ℚ)
    (acc : List AudioDataPlane) (inb : Option (List ℚ)) (n : Nat) (bt st : ℚ)
    (total : Nat) :
    (ts.foldl (fun (a : List ℚ × List AudioDataPlane) track_data =>
        (mixTrackIntoDevice a.1 (track_data.process_audio none inb n bt st).1.m_output_buffer total,
         a.2 ++ [(track_data.process_audio none inb n bt st).1]))
      (buf, acc)).2 = acc ++ ts ∧
    (ts.foldl (fun (a : List ℚ × List AudioDataPlane) track_data =>
        (mixTrackIntoDevice a.1 (track_data.process_audio none inb n bt st).1.m_output_buffer total,
         a.2 ++ [(track_data.process_audio none inb n bt st).1]))
      (buf, acc)).1.length = buf.length ∧
    ∀ j, j < buf.length →
      (ts.foldl (fun (a : List ℚ × List AudioDataPlane) track_data =>
          (mixTrackIntoDevice a.1 (track_data.process_audio none inb n bt st).1.m_output_buffer total,
           a.2 ++ [(track_data.process_audio none inb n bt st).1]))
        (buf, acc)).1.getD j 0 =
        buf.getD j 0 + (ts.map (fun t =>
          if j < min t.m_output_buffer.length total
          then t.m_output_buffer.getD j 0 else 0)).sum := by
  induction ts generalizing buf acc with
  | nil => simp
  | cons t rest ih =>
    rw [List.foldl_cons]
    dsimp only [AudioDataPlane.process_audio_none]
    have ih' := ih (mixTrackIntoDevice buf t.m_output_buffer total) (acc ++ [t])
    dsimp only [AudioDataPlane.process_audio_none] at ih'
    obtain ⟨ih1, ih2, ih3⟩ := ih'
    refine ⟨by rw [ih1]; simp, by rw [ih2, mixTrackIntoDevice_length], ?_⟩
    intro j hj
    rw [ih3 j (by rw [mixTrackIntoDevice_length]; exact hj),
        mixTrackIntoDevice_getD _ _ _ _ hj]
    simp [add_assoc]

/-- **C6**: the audio callback handler returns an error code on a null
user pointer; returns success without writing when the device output
pointer is null or there are no active tracks; and otherwise zeroes the
first `n_frames * output_channels` device samples (channels taken from
the first active track), calls each active track's `process_audio` (a
no-op on the plane, as the per-track output pointer is null) and adds
each track's output buffer into the device buffer sample-wise up to
`min(track buffer size, n_frames * output_channels)`, leaving later
device samples untouched. -/
theorem C6_audio_callback_dispatch (ctx : AudioCallbackContext) (out : List ℚ)
    (inb : Option (List ℚ)) (n : Nat) (bt st : ℚ) :
    audio_callback none (some out) inb n bt st = (1, some out, none) ∧
    audio_callback (some ctx) none inb n bt st = (0, none, some ctx) ∧
    (ctx.active_tracks = [] →
      audio_callback (some ctx) (some out) inb n bt st = (0, some out, some ctx)) ∧
    (∀ first restT, ctx.active_tracks = first :: restT →
      n * first.m_output_channels ≤ out.length →
      (audio_callback (some ctx) (some out) inb n bt st).1 = 0 ∧
      (audio_callback (some ctx) (some out) inb n bt st).2.2 = some ctx ∧
      ∃ out', (audio_callback (some ctx) (some out) inb n bt st).2.1 = some out' ∧
        out'.length = out.length ∧
        (∀ j, j < n * first.m_output_channels →
          out'.getD j 0 = (ctx.active_tracks.map (fun t =>
            if j < min t.m_output_buffer.length (n * first.m_output_channels)
            then t.m_output_buffer.getD j 0 else 0)).sum) ∧
        (∀ j, n * first.m_output_channels ≤ j → out'.getD j 0 = out.getD j 0)) := by
  refine ⟨rfl, rfl, ?_, ?_⟩
  · intro hnil
    simp [audio_callback, hnil]
  · intro first restT htracks htot
    by_cases htz : n * first.m_output_channels = 0
    · have hcb : audio_callback (some ctx) (some out) inb n bt st = (0, some out, some ctx) := by
        simp [audio_callback, htracks, htz]
      rw [hcb]
      exact ⟨rfl, rfl, out, rfl, rfl, fun j hj => by omega, fun j hj => rfl⟩
    · set total := n * first.m_output_channels with htotal
      set zeroed := List.replicate total (0 : ℚ) ++ out.drop total with hzeroed
      have hzlen : zeroed.length = out.length := by
        rw [hzeroed]
        simp [List.length_replicate, List.length_drop]
        omega
      obtain ⟨hf1, hf2, hf3⟩ := audio_callback_foldl_mix ctx.active_tracks zeroed [] inb n bt st total
      have hcb : audio_callback (some ctx) (some out) inb n bt st =
          (0,
           some (ctx.active_tracks.foldl (fun (a : List ℚ × List AudioDataPlane) track_data =>
              (mixTrackIntoDevice a.1 (track_data.process_audio none inb n bt st).1.m_output_buffer total,
               a.2 ++ [(track_data.process_audio none inb n bt st).1]))
            (zeroed, [])).1,
           some { ctx with active_tracks :=
             (ctx.active_tracks.foldl (fun (a : List ℚ × List AudioDataPlane) track_data =>
                (mixTrackIntoDevice a.1 (track_data.process_audio none inb n bt st).1.m_output_buffer total,
                 a.2 ++ [(track_data.process_audio none inb n bt st).1]))
              (zeroed, [])).2 }) := by
        rw [audio_callback]
        rw [htracks]
        simp only [← htracks]
        rw [if_neg htz]
      rw [hcb]
      set F := (fun (a : List ℚ × List AudioDataPlane) (track_data : AudioDataPlane) =>
          (mixTrackIntoDevice a.1 (track_data.process_audio none inb n bt st).1.m_output_buffer total,
           a.2 ++ [(track_data.process_audio none inb n bt st).1])) with hF
      refine ⟨rfl, ?_, (ctx.active_tracks.foldl F (zeroed, [])).1, rfl, ?_, ?_, ?_⟩
      · rw [hf1]
        simp
      · rw [hf2, hzlen]
      · intro j hj
        rw [hf3 j (by omega)]
        have : zeroed.getD j 0 = 0 := by
          rw [hzeroed, List.getD_append _ _ _ _ (by simp [List.length_replicate]; omega)]
          simp [List.getD_eq_getElem?_getD, List.getElem?_replicate, hj]
        rw [this, zero_add]
      · intro j hj
        rcases Nat.lt_or_ge j out.length with hjl | hjl
        · rw [hf3 j (by omega)]
          have hsum : (ctx.active_tracks.map (fun t =>
              if j < min t.m_output_buffer.length total
              then t.m_output_buffer.getD j 0 else 0)).sum = 0 := by
            apply List.sum_eq_zero
            intro x hx
            simp only [List.mem_map] at hx
            obtain ⟨t, -, ht⟩ := hx
            rw [← ht, if_neg (by omega)]
          rw [hsum, add_zero, hzeroed,
              List.getD_append_right _ _ _ _ (by simp [List.length_replicate]; omega)]
          simp only [List.length_replicate]
          rw [List.getD_eq_getElem?_getD, List.getElem?_drop, List.getD_eq_getElem?_getD]
          congr 2
          omega
        · have h1 : (ctx.active_tracks.foldl F (zeroed, [])).1.length ≤ j := by
            rw [hf2, hzlen]
            omega
          rw [List.getD_eq_default _ _ h1, List.getD_eq_default _ _ (by omega : out.length ≤ j)]

/-- Witness for C6: one active track with output buffer `[2, 3]`, one
output channel, two frames over a three-slot device buffer. -/
theorem C6_audio_callback_dispatch_witness :
    (audio_callback (some (AudioCallbackContext.mk
        [AudioDataPlane.mk [] [2, 3] .initial true 0 1 1]))
      (some [9, 9, 9]) none 2 0 0).1 = 0 ∧
    (audio_callback (some (AudioCallbackContext.mk
        [AudioDataPlane.mk [] [2, 3] .initial true 0 1 1]))
      (some [9, 9, 9]) none 2 0 0).2.2 =
      some (AudioCallbackContext.mk [AudioDataPlane.mk [] [2, 3] .initial true 0 1 1]) ∧
    ∃ out', (audio_callback (some (AudioCallbackContext.mk
        [AudioDataPlane.mk [] [2, 3] .initial true 0 1 1]))
      (some [9, 9, 9]) none 2 0 0).2.1 = some out' ∧
      out'.length = 3 ∧
      (∀ j, j < 2 * 1 →
        out'.getD j 0 = ((AudioCallbackContext.mk
            [AudioDataPlane.mk [] [2, 3] .initial true 0 1 1]).active_tracks.map (fun t =>
          if j < min t.m_output_buffer.length (2 * 1)
          then t.m_output_buffer.getD j 0 else 0)).sum) ∧
      (∀ j, 2 * 1 ≤ j → out'.getD j 0 = [(9 : ℚ), 9, 9].getD j 0) :=
  (C6_audio_callback_dispatch
      (AudioCallbackContext.mk [AudioDataPlane.mk [] [2, 3] .initial true 0 1 1])
      [9, 9, 9] none 2 0 0).2.2.2
    (AudioDataPlane.mk [] [2, 3] .initial true 0 1 1) [] rfl (by decide)

/-- **C7**: `start_stream` while already `Playing` returns false with no
side effects at all (state, output device, registered data planes all
unchanged); it likewise returns false leaving the state unchanged when
no output device is set, or when no data plane is registered; and
`stop_stream` while not `Playing` returns false and performs no
action. -/
theorem C7_start_stop_idempotence (s : AudioControllerState)
    (open_ok start_ok is_stream_running stop_ok : Bool) :
    (s.m_stream_state = eAudioState.Playing →
      AudioStreamController.start s open_ok start_ok = (false, s)) ∧
    (s.m_has_output_device = false →
      AudioStreamController.start s open_ok start_ok = (false, s)) ∧
    (s.m_registered_dataplanes = [] →
      AudioStreamController.start s open_ok start_ok = (false, s)) ∧
    (s.m_stream_state ≠ eAudioState.Playing →
      AudioStreamController.stop s is_stream_running stop_ok = (false, s)) := by
  refine ⟨?_, ?_, ?_, ?_⟩
  · intro hp
    simp [AudioStreamController.start, validate_start_preconditions, hp]
  · intro hd
    by_cases hp : s.m_stream_state = eAudioState.Playing <;>
      simp [AudioStreamController.start, validate_start_preconditions, hp, hd]
  · intro hreg
    by_cases hp : s.m_stream_state = eAudioState.Playing
    · simp [AudioStreamController.start, validate_start_preconditions, hp]
    · by_cases hd : s.m_has_output_device <;>
        simp [AudioStreamController.start, validate_start_preconditions,
              register_dataplanes, hp, hd, hreg]
  · intro hnp
    simp [AudioStreamController.stop, hnp]

/-- Witness for C7: a playing controller refuses to start; a stopped one
without a device or without data planes refuses to start; a stopped one
refuses to stop. -/
theorem C7_start_stop_idempotence_witness :
    (AudioStreamController.start
      (AudioControllerState.mk eAudioState.Playing true 2
        [AudioDataPlane.mk [] [] .initial false 0 1 2] []) true true =
      (false, AudioControllerState.mk eAudioState.Playing true 2
        [AudioDataPlane.mk [] [] .initial false 0 1 2] [])) ∧
    (AudioStreamController.start
      (AudioControllerState.mk eAudioState.Stopped false 2
        [AudioDataPlane.mk [] [] .initial false 0 1 2] []) true true =
      (false, AudioControllerState.mk eAudioState.Stopped false 2
        [AudioDataPlane.mk [] [] .initial false 0 1 2] [])) ∧
    (AudioStreamController.start
      (AudioControllerState.mk eAudioState.Stopped true 2 [] []) true true =
      (false, AudioControllerState.mk eAudioState.Stopped true 2 [] [])) ∧
    (AudioStreamController.stop
      (AudioControllerState.mk eAudioState.Stopped true 2 [] []) false true =
      (false, AudioControllerState.mk eAudioState.Stopped true 2 [] [])) :=
  ⟨(C7_start_stop_idempotence
      (AudioControllerState.mk eAudioState.Playing true 2
        [AudioDataPlane.mk [] [] .initial false 0 1 2] []) true true false true).1 rfl,
   (C7_start_stop_idempotence
      (AudioControllerState.mk eAudioState.Stopped false 2
        [AudioDataPlane.mk [] [] .initial false 0 1 2] []) true true false true).2.1 rfl,
   (C7_start_stop_idempotence
      (AudioControllerState.mk eAudioState.Stopped true 2 [] []) true true false true).2.2.1 rfl,
   (C7_start_stop_idempotence
      (AudioControllerState.mk eAudioState.Stopped true 2 [] []) true true false true).2.2.2
     (by decide)⟩

/-- Counterexample to **C8** as stated: `open_input_port` calls the
backend `ignoreTypes(false, true, true)` (midiportcontroller.cpp line
84), i.e. it requests that timing and active-sensing messages be
ignored but leaves system-exclusive messages *enabled* — even when the
controller previously ignored them — contradicting the claim that
system-exclusive messages are requested to be ignored. -/
theorem C8_sysex_counterexample :
    MidiPortController.open_input_port
      (MidiPortControllerState.mk 1
        [TrackMidiDataPlane.mk (MidiInputStatistics.mk 0) false] []
        false false true false false) 0 true =
      .ok (MidiPortControllerState.mk 1
        [TrackMidiDataPlane.mk (MidiInputStatistics.mk 0) false]
        [TrackMidiDataPlane.mk (MidiInputStatistics.mk 0) false]
        true true false true true) ∧
    (MidiPortControllerState.mk 1
        [TrackMidiDataPlane.mk (MidiInputStatistics.mk 0) false]
        [TrackMidiDataPlane.mk (MidiInputStatistics.mk 0) false]
        true true false true true).m_ignore_sysex = false := by
  exact ⟨rfl, rfl⟩

/-- **C8 (amended)**: `open_input_port(n)` signals an out-of-range error
when `n` is at least the number of available ports; with an empty list
of registered MIDI data planes it returns without opening (closing a
previously open port first and leaving the callback registration
untouched); and otherwise it closes any previously open port, registers
the callback handler with the backend and requests that *timing and
active-sensing* messages be ignored while system-exclusive messages are
left enabled, before opening the port. -/
theorem C8_open_input_port_contract (s : MidiPortControllerState) (n : Nat)
    (open_ok : Bool) :
    (s.m_port_count ≤ n →
      MidiPortController.open_input_port s n open_ok = .error .outOfRange) ∧
    (n < s.m_port_count → s.m_registered_dataplanes = [] →
      ∃ s', MidiPortController.open_input_port s n open_ok = .ok s' ∧
        s'.m_port_open = false ∧
        s'.m_active_tracks = [] ∧
        s'.m_callback_registered = s.m_callback_registered ∧
        s'.m_ignore_sysex = s.m_ignore_sysex ∧
        s'.m_ignore_time = s.m_ignore_time ∧
        s'.m_ignore_sense = s.m_ignore_sense) ∧
    (n < s.m_port_count → s.m_registered_dataplanes ≠ [] →
      ∃ s', MidiPortController.open_input_port s n open_ok = .ok s' ∧
        s'.m_callback_registered = true ∧
        s'.m_ignore_sysex = false ∧
        s'.m_ignore_time = true ∧
        s'.m_ignore_sense = true ∧
        s'.m_active_tracks = s.m_registered_dataplanes ∧
        s'.m_port_open = open_ok) := by
  obtain ⟨pc, rd, act, po, cr, ig1, ig2, ig3⟩ := s
  refine ⟨?_, ?_, ?_⟩
  · intro hge
    simp only [MidiPortControllerState.m_port_count] at hge
    simp [MidiPortController.open_input_port, hge]
  · intro hlt hreg
    simp only [MidiPortControllerState.m_port_count] at hlt
    simp only [MidiPortControllerState.m_registered_dataplanes] at hreg
    subst hreg
    refine ⟨MidiPortControllerState.mk pc [] [] false cr ig1 ig2 ig3,
            ?_, rfl, rfl, rfl, rfl, rfl, rfl⟩
    cases po <;>
      simp [MidiPortController.open_input_port, Nat.not_le.mpr hlt,
            MidiPortController.close_input_port]
  · intro hlt hreg
    simp only [MidiPortControllerState.m_port_count] at hlt
    simp only [MidiPortControllerState.m_registered_dataplanes] at hreg
    have hne : rd.isEmpty = false := by
      simpa [List.isEmpty_iff] using hreg
    refine ⟨MidiPortControllerState.mk pc rd rd open_ok true false true true,
            ?_, rfl, rfl, rfl, rfl, rfl, rfl⟩
    cases po <;> cases open_ok <;>
      simp [MidiPortController.open_input_port, Nat.not_le.mpr hlt,
            MidiPortController.close_input_port, hne]

/-- Witness for C8 (amended): a two-port controller — an out-of-range
index fails; with no registered planes the open is skipped; with one
registered plane the port opens with timing/sensing ignored and sysex
enabled. -/
theorem C8_open_input_port_contract_witness :
    ((MidiPortControllerState.mk 2 [] [] false false false false false).m_port_count ≤ 5 ∧
      MidiPortController.open_input_port
        (MidiPortControllerState.mk 2 [] [] false false false false false) 5 true =
        .error .outOfRange) ∧
    (∃ s', MidiPortController.open_input_port
        (MidiPortControllerState.mk 2 [] [] true false false false false) 0 true = .ok s' ∧
        s'.m_port_open = false ∧
        s'.m_active_tracks = [] ∧
        s'.m_callback_registered = false ∧
        s'.m_ignore_sysex = false ∧
        s'.m_ignore_time = false ∧
        s'.m_ignore_sense = false) ∧
    (∃ s', MidiPortController.open_input_port
        (MidiPortControllerState.mk 2
          [TrackMidiDataPlane.mk (MidiInputStatistics.mk 0) false] []
          false false true false false) 0 true = .ok s' ∧
        s'.m_callback_registered = true ∧
        s'.m_ignore_sysex = false ∧
        s'.m_ignore_time = true ∧
        s'.m_ignore_sense = true ∧
        s'.m_active_tracks =
          [TrackMidiDataPlane.mk (MidiInputStatistics.mk 0) false] ∧
        s'.m_port_open = true) :=
  ⟨⟨by decide, (C8_open_input_port_contract
      (MidiPortControllerState.mk 2 [] [] false false false false false) 5 true).1
      (by decide)⟩,
   (C8_open_input_port_contract
      (MidiPortControllerState.mk 2 [] [] true false false false false) 0 true).2.1
      (by decide) rfl,
   (C8_open_input_port_contract
      (MidiPortControllerState.mk 2
        [TrackMidiDataPlane.mk (MidiInputStatistics.mk 0) false] []
        false false true false false) 0 true).2.2
      (by decide) (by decide)⟩

namespace TrackForest

theorem iterParent_succ (t : TrackForest) (k x p : Nat)
    (h : parentOf t x = some p) : iterParent t (k + 1) x = iterParent t k p := by
  conv_lhs => rw [iterParent]
  rw [h]

theorem iterParent_succ_none (t : TrackForest) (k x : Nat)
    (h : parentOf t x = none) : iterParent t (k + 1) x = none := by
  conv_lhs => rw [iterParent]
  rw [h]

theorem iterParent_add (t : TrackForest) (a b x : Nat) :
    iterParent t (a + b) x = (iterParent t a x).bind (fun y => iterParent t b y) := by
  induction a generalizing x with
  | zero => simp [iterParent]
  | succ a ih =>
    have hra : a + 1 + b = (a + b) + 1 := by omega
    rw [hra]
    cases hp : parentOf t x with
    | none =>
      rw [iterParent_succ_none t _ _ hp, iterParent_succ_none t _ _ hp]
      rfl
    | some p =>
      rw [iterParent_succ t _ _ _ hp, iterParent_succ t _ _ _ hp, ih]

theorem iterParent_none_mono (t : TrackForest) (k j x : Nat)
    (h : iterParent t k x = none) (hkj : k ≤ j) : iterParent t j x = none := by
  have : j = k + (j - k) := by omega
  rw [this, iterParent_add, h]
  rfl

theorem iterParent_isSome_of_le (t : TrackForest) (m i x : Nat) (a : Nat)
    (h : iterParent t m x = some a) (him : i ≤ m) :
    (iterParent t i x).isSome := by
  cases hi : iterParent t i x with
  | none =>
    rw [iterParent_none_mono t i m x hi him] at h
    exact absurd h (by simp)
  | some y => rfl

theorem mem_ancestorsFuel_iff (t : TrackForest) (k a x : Nat) :
    a ∈ ancestorsFuel t k x ↔ ∃ m, 0 < m ∧ m ≤ k ∧ iterParent t m x = some a := by
  induction k generalizing x with
  | zero =>
    simp [ancestorsFuel]
    intro m h1 h2
    omega
  | succ k ih =>
    cases hp : parentOf t x with
    | none =>
      simp only [ancestorsFuel, hp]
      simp only [List.not_mem_nil, false_iff]
      rintro ⟨m, hm0, -, hit⟩
      obtain ⟨m', rfl⟩ : ∃ m', m = m' + 1 := ⟨m - 1, by omega⟩
      rw [iterParent_succ_none t _ _ hp] at hit
      exact absurd hit (by simp)
    | some p =>
      simp only [ancestorsFuel, hp, List.mem_cons]
      constructor
      · rintro (rfl | hmem)
        · exact ⟨1, by omega, by omega, by rw [iterParent_succ t 0 x a hp]; rfl⟩
        · obtain ⟨m, hm0, hmk, hit⟩ := (ih p).mp hmem
          exact ⟨m + 1, by omega, by omega, by rw [iterParent_succ t m x p hp]; exact hit⟩
      · rintro ⟨m, hm0, hmk, hit⟩
        obtain ⟨m', rfl⟩ : ∃ m', m = m' + 1 := ⟨m - 1, by omega⟩
        rw [iterParent_succ t m' x p hp] at hit
        rcases Nat.eq_zero_or_pos m' with rfl | hm'
        · left
          simpa [iterParent] using hit.symm
        · right
          exact (ih p).mpr ⟨m', hm', by omega, hit⟩

theorem parentOf_mem_keys (t : TrackForest) (y p : Nat)
    (h : parentOf t y = some p) : y ∈ t.map Prod.fst := by
  unfold parentOf at h
  cases hf : t.find? (fun e => e.1 == y) with
  | none => rw [hf] at h; exact absurd h (by simp)
  | some e =>
    have he : e ∈ t := List.mem_of_find?_eq_some hf
    have heq : e.1 = y := by
      have := List.find?_some hf
      simpa using this
    exact heq ▸ List.mem_map_of_mem Prod.fst he

theorem parentOf_eq_none_of_not_mem (t : TrackForest) (y : Nat)
    (h : y ∉ t.map Prod.fst) : parentOf t y = none := by
  unfold parentOf
  rw [List.find?_eq_none.mpr]
  · rfl
  · intro e he hbeq
    exact h (by
      have : e.1 = y := by simpa using hbeq
      exact this ▸ List.mem_map_of_mem Prod.fst he)

/-- In an acyclic forest a live parent chain of length `m` uses `m`
distinct keys, so `m` is at most the number of edges. -/
theorem iterParent_bound_of_acyclic (t : TrackForest) (hA : Acyclic t)
    (m x a : Nat) (h : iterParent t m x = some a) : m ≤ t.length := by
  have hsome : ∀ i, i ≤ m → (iterParent t i x).isSome := fun i hi =>
    iterParent_isSome_of_le t m i x a h hi
  -- the value after i steps
  have hv : ∀ i : Fin (m + 1), ∃ y, iterParent t (i : Nat) x = some y := by
    intro i
    have := hsome i (by omega)
    cases hit : iterParent t (i : Nat) x with
    | none => rw [hit] at this; exact absurd this (by simp)
    | some y => exact ⟨y, rfl⟩
  classical
  choose v hvs using hv
  have hinj : Function.Injective v := by
    intro i j hvij
    by_contra hne
    -- without loss of generality two distinct positions with equal values
    have key : ∀ i j : Fin (m + 1), (i : Nat) < (j : Nat) → v i = v j → False := by
      intro i j hlt hvij
      have hperiodic : ∀ d, iterParent t ((i : Nat) + d) x = iterParent t ((j : Nat) + d) x := by
        intro d
        rw [iterParent_add, iterParent_add, hvs i, hvs j, hvij]
      have halive : ∀ k, (iterParent t k x).isSome := by
        intro k
        induction k using Nat.strong_induction_on with
        | _ k ih =>
          rcases le_or_lt k m with hk | hk
          · exact hsome k hk
          · have hjk : (j : Nat) < k := by omega
            have hk' : k = (j : Nat) + (k - (j : Nat)) := by omega
            have : iterParent t k x = iterParent t ((i : Nat) + (k - (j : Nat))) x := by
              conv_lhs => rw [hk']
              exact (hperiodic (k - (j : Nat))).symm
            rw [this]
            exact ih ((i : Nat) + (k - (j : Nat))) (by omega)
      obtain ⟨K, hK⟩ := hA x
      have := halive K
      rw [hK] at this
      exact absurd this (by simp)
    rcases Nat.lt_trichotomy (i : Nat) (j : Nat) with hlt | heq | hgt
    · exact key i j hlt hvij
    · exact hne (Fin.ext heq)
    · exact key j i hgt hvij.symm
  have hkeys : ∀ i : Fin (m + 1), (i : Nat) < m → v i ∈ t.map Prod.fst := by
    intro i him
    have hs1 : (iterParent t ((i : Nat) + 1) x).isSome := hsome _ (by omega)
    rw [iterParent_add, hvs i] at hs1
    simp only [Option.some_bind] at hs1
    cases hp : parentOf t (v i) with
    | none =>
      rw [iterParent_succ_none t 0 (v i) hp] at hs1
      exact absurd hs1 (by simp)
    | some p => exact parentOf_mem_keys t (v i) p hp
  -- the first m values form a nodup list inside the keys of t
  have hsub : List.ofFn (fun i : Fin m => v i.castSucc) ⊆ t.map Prod.fst := by
    intro y hy
    rw [List.mem_ofFn] at hy
    obtain ⟨i, rfl⟩ := hy
    exact hkeys i.castSucc (by simp)
  have hnd : (List.ofFn (fun i : Fin m => v i.castSucc)).Nodup :=
    List.nodup_ofFn_ofInjective (fun a b hab =>
      Fin.castSucc_injective m (hinj hab))
  have := (List.subperm_of_subset hnd hsub).length_le
  simpa using this

/-- A bounded, decidable sufficient condition for acyclicity. -/
theorem acyclic_of_check (t : TrackForest)
    (h : ∀ x ∈ t.map Prod.fst, iterParent t (t.length + 1) x = none) :
    Acyclic t := by
  intro x
  by_cases hx : x ∈ t.map Prod.fst
  · exact ⟨t.length + 1, h x hx⟩
  · exact ⟨1, iterParent_succ_none t 0 x (parentOf_eq_none_of_not_mem t x hx)⟩

theorem parentOf_cons (c s y : Nat) (t : TrackForest) :
    parentOf ((c, s) :: t) y = if y = c then some s else parentOf t y := by
  unfold parentOf
  by_cases hyc : y = c
  · subst hyc
    rw [List.find?_cons_of_pos _ (by simp), if_pos rfl]
    rfl
  · rw [List.find?_cons_of_neg _ (by simpa using Ne.symm hyc), if_neg hyc]

/-- Parent chains that avoid the new child coincide with the old forest's
chains. -/
theorem iterParent_cons_of_avoid (c s : Nat) (t : TrackForest) (k : Nat) :
    ∀ y, (∀ i, i < k → iterParent t i y ≠ some c) →
      iterParent ((c, s) :: t) k y = iterParent t k y := by
  induction k with
  | zero => intro y _; rfl
  | succ k ih =>
    intro y havoid
    have hyc : y ≠ c := by
      have := havoid 0 (by omega)
      simpa [iterParent] using this
    have hp : parentOf ((c, s) :: t) y = parentOf t y := by
      rw [parentOf_cons, if_neg hyc]
    cases hpt : parentOf t y with
    | none =>
      rw [iterParent_succ_none _ _ _ (hp.trans hpt), iterParent_succ_none _ _ _ hpt]
    | some p =>
      rw [iterParent_succ _ _ _ _ (hp.trans hpt), iterParent_succ _ _ _ _ hpt]
      refine ih p (fun i hi => ?_)
      have := havoid (i + 1) (by omega)
      rwa [iterParent_succ t i y p hpt] at this

/-- A successful attach preserves acyclicity: the new edge `c → s` cannot
close a cycle because `c` was not an ancestor of `s`. -/
theorem acyclic_add (t : TrackForest) (c s : Nat) (hA : Acyclic t)
    (_hnp : parentOf t c = none) (hcs : c ≠ s)
    (hanc : isAncestor t c s = false) : Acyclic ((c, s) :: t) := by
  have havoid_s : ∀ i, iterParent t i s ≠ some c := by
    intro i hit
    rcases Nat.eq_zero_or_pos i with rfl | hi
    · simp [iterParent] at hit
      exact hcs hit.symm
    · have hle := iterParent_bound_of_acyclic t hA i s c hit
      have hmem : c ∈ ancestorsFuel t (t.length + 1) s :=
        (mem_ancestorsFuel_iff t (t.length + 1) c s).mpr ⟨i, hi, by omega, hit⟩
      rw [isAncestor] at hanc
      have : c ∈ ancestorsFuel t (t.length + 1) s → False := by
        intro hmem'
        have helem : (ancestorsFuel t (t.length + 1) s).contains c = true :=
          List.elem_iff.mpr hmem'
        rw [hanc] at helem
        exact absurd helem (by simp)
      exact this hmem
  obtain ⟨ks, hks⟩ := hA s
  have hks' : iterParent ((c, s) :: t) ks s = none := by
    rw [iterParent_cons_of_avoid c s t ks s (fun i _ => havoid_s i)]
    exact hks
  intro y
  obtain ⟨K, hK⟩ := hA y
  by_cases hhit : ∃ i, iterParent t i y = some c
  · -- the chain from y reaches c; in the new forest it continues to s and
    -- then dies along s's old chain
    have hdec : DecidablePred (fun i => iterParent t i y = some c) := fun i => by
      infer_instance
    obtain ⟨i0, hi0, hi0min⟩ :=
      Nat.lt_wfRel.wf.has_min { i | iterParent t i y = some c } (by
        obtain ⟨i, hi⟩ := hhit
        exact ⟨i, hi⟩)
    refine ⟨i0 + 1 + ks, ?_⟩
    have hcoin : iterParent ((c, s) :: t) i0 y = some c := by
      rw [iterParent_cons_of_avoid c s t i0 y (fun i hi => fun hc =>
        hi0min i hc hi)]
      exact hi0
    rw [iterParent_add, iterParent_add, hcoin]
    have hstep : iterParent ((c, s) :: t) 1 c = some s := by
      rw [iterParent_succ _ 0 c s (by rw [parentOf_cons, if_pos rfl])]
      rfl
    simp only [Option.some_bind]
    rw [hstep]
    simp only [Option.some_bind]
    exact hks'
  · push_neg at hhit
    refine ⟨K, ?_⟩
    rw [iterParent_cons_of_avoid c s t K y (fun i _ => hhit i)]
    exact hK

theorem parentOf_remove (t : TrackForest) (child y : Nat) :
    parentOf (remove_from_parent t child) y =
      if y = child then none else parentOf t y := by
  induction t with
  | nil =>
    simp only [remove_from_parent, List.filter_nil, parentOf, List.find?_nil,
               Option.map_none]
    split <;> rfl
  | cons e rest ih =>
    by_cases hec : e.1 = child
    · have hfilter : remove_from_parent (e :: rest) child = remove_from_parent rest child := by
        simp [remove_from_parent, hec]
      rw [hfilter, ih]
      by_cases hyc : y = child
      · rw [if_pos hyc, if_pos hyc]
      · rw [if_neg hyc, if_neg hyc]
        unfold parentOf
        rw [List.find?_cons_of_neg _ (by simp; omega)]
    · have hfilter : remove_from_parent (e :: rest) child =
          e :: remove_from_parent rest child := by
        simp [remove_from_parent, hec]
      rw [hfilter]
      by_cases hey : e.1 = y
      · unfold parentOf
        rw [List.find?_cons_of_pos _ (by simp [hey]),
            List.find?_cons_of_pos _ (by simp [hey])]
        rw [if_neg (by omega)]
      · unfold parentOf at *
        rw [List.find?_cons_of_neg _ (by simp [hey]),
            List.find?_cons_of_neg _ (by simp [hey])]
        exact ih

/-- Detaching a track preserves acyclicity (chains only get shorter). -/
theorem acyclic_remove (t : TrackForest) (child : Nat) (hA : Acyclic t) :
    Acyclic (remove_from_parent t child) := by
  have hnone : ∀ K y, iterParent t K y = none →
      iterParent (remove_from_parent t child) K y = none := by
    intro K
    induction K with
    | zero => intro y hy; exact absurd hy (by simp [iterParent])
    | succ K ih =>
      intro y hy
      by_cases hyc : y = child
      · exact iterParent_succ_none _ K y (by rw [parentOf_remove, if_pos hyc])
      · cases hpt : parentOf t y with
        | none =>
          exact iterParent_succ_none _ K y (by rw [parentOf_remove, if_neg hyc]; exact hpt)
        | some p =>
          rw [iterParent_succ t K y p hpt] at hy
          rw [iterParent_succ _ K y p (by rw [parentOf_remove, if_neg hyc]; exact hpt)]
          exact ih p hy
  intro y
  obtain ⟨K, hK⟩ := hA y
  exact ⟨K, hnone K y hK⟩

/-- Characterization of a successful `add_child`. -/
theorem add_child_ok (t t' : TrackForest) (self child : Nat)
    (h : add_child t self child = .ok t') :
    t' = (child, self) :: t ∧ child ≠ self ∧
    isAncestor t child self = false ∧ parentOf t child = none := by
  unfold add_child at h
  by_cases h1 : child = self
  · rw [if_pos h1] at h; exact absurd h (by simp)
  · rw [if_neg h1] at h
    by_cases h2 : isAncestor t child self
    · rw [if_pos h2] at h; exact absurd h (by simp)
    · rw [if_neg h2] at h
      by_cases h3 : (parentOf t child).isSome
      · rw [if_pos h3] at h; exact absurd h (by simp)
      · rw [if_neg h3] at h
        simp only [Except.ok.injEq] at h
        refine ⟨h.symm, h1, by simpa using h2, ?_⟩
        cases hp : parentOf t child with
        | none => rfl
        | some p => rw [hp] at h3; simp at h3

/-- Every sequence of hierarchy operations preserves acyclicity. -/
theorem runHierOps_acyclic (ops : List HierOp) (t : TrackForest)
    (hA : Acyclic t) : Acyclic (runHierOps t ops) := by
  induction ops generalizing t with
  | nil => exact hA
  | cons op rest ih =>
    cases op with
    | addChild self child =>
      cases hstep : add_child t self child with
      | ok t1 =>
        obtain ⟨rfl, hcs, hanc, hnp⟩ := add_child_ok t t1 self child hstep
        have hA1 := acyclic_add t child self hA hnp hcs hanc
        simpa [runHierOps, hstep] using ih _ hA1
      | error e =>
        simpa [runHierOps, hstep] using ih _ hA
    | removeFromParent child =>
      simpa [runHierOps] using ih _ (acyclic_remove t child hA)

/-- **C9** (modelled from the spec, `Track::add_child_track` being absent
from `src/`): for every track `C` and every ancestor `A` of `C`,
`C.add_child(A)` fails with `CycleDetected` (leaving the forest
unchanged, as no new forest is produced); `add_child` also fails when
the argument is the receiver itself or already has a parent; on success
the child's parent becomes the receiver; and consequently the track
graph stays acyclic after every sequence of hierarchy operations. -/
theorem C9_track_hierarchy_acyclic (t : TrackForest) (C A self child : Nat)
    (ops : List HierOp) (hA : Acyclic t) :
    (IsAncestorP t A C → add_child t C A = .error .cycleDetected) ∧
    add_child t self self = .error .cycleDetected ∧
    ((parentOf t child).isSome → ∃ e, add_child t self child = .error e) ∧
    (∀ t', add_child t self child = .ok t' → parentOf t' child = some self) ∧
    Acyclic (runHierOps t ops) := by
  refine ⟨?_, ?_, ?_, ?_, runHierOps_acyclic ops t hA⟩
  · rintro ⟨m, hm, hit⟩
    by_cases hac : A = C
    · unfold add_child
      rw [if_pos hac]
    · have hle := iterParent_bound_of_acyclic t hA m C A hit
      have hmem : A ∈ ancestorsFuel t (t.length + 1) C :=
        (mem_ancestorsFuel_iff t (t.length + 1) A C).mpr ⟨m, hm, by omega, hit⟩
      have hanc : isAncestor t A C = true := by
        unfold isAncestor
        exact List.elem_iff.mpr hmem
      unfold add_child
      rw [if_neg hac, if_pos hanc]
  · unfold add_child
    rw [if_pos rfl]
  · intro hsome
    unfold add_child
    by_cases h1 : child = self
    · rw [if_pos h1]; exact ⟨_, rfl⟩
    · rw [if_neg h1]
      by_cases h2 : isAncestor t child self
      · rw [if_pos h2]; exact ⟨_, rfl⟩
      · rw [if_neg h2, if_pos hsome]; exact ⟨_, rfl⟩
  · intro t' hok
    obtain ⟨rfl, -, -, -⟩ := add_child_ok t t' self child hok
    rw [parentOf_cons, if_pos rfl]

/-- Witness for C9: in the forest `B` child of `A`, `C` child of `B`
(spec §8 scenario 6), `C.add_child(A)` fails with `CycleDetected`, and a
concrete operation sequence keeps the forest acyclic. -/
theorem C9_track_hierarchy_acyclic_witness :
    add_child [(1, 0), (2, 1)] 2 0 = .error .cycleDetected ∧
    Acyclic (runHierOps [(1, 0), (2, 1)]
      [.addChild 2 0, .removeFromParent 1, .addChild 1 2]) :=
  have hA : Acyclic [(1, 0), (2, 1)] := acyclic_of_check _ (by decide)
  ⟨(C9_track_hierarchy_acyclic [(1, 0), (2, 1)] 2 0 0 0
      [.addChild 2 0, .removeFromParent 1, .addChild 1 2] hA).1
    ⟨2, by decide, by decide⟩,
   (C9_track_hierarchy_acyclic [(1, 0), (2, 1)] 2 0 0 0
      [.addChild 2 0, .removeFromParent 1, .addChild 1 2] hA).2.2.2.2⟩

end TrackForest

end MiniAudioEngine
